import Mathlib

/-!
# Staking client: record layouts and instruction builders

A shallow embedding of the JavaScript client of the staking program
(`client/src/layout.js`, `client/src/instruction.js`, `client/src/staking-store.js`,
`client/src/util/account.js`, `client/src/constants.js`).

* A Node `Buffer` is a list of octets.
* A thrown JavaScript exception is the `error` branch of `Except JsError`.
* The parts of the libraries the client calls (`buffer-layout`, `bn.js`, `Buffer`,
  `PublicKey`) are embedded as far as the client uses them, next to the client code.
-/

namespace Staking

/-! ## Buffers -/

/-- One octet of a Node Buffer. -/
abbrev Byte := Fin 256

/-- Node Buffer: a finite sequence of octets. -/
abbrev Buffer := List Byte

/-- The octet holding the low eight bits of a number. -/
def byteOf (n : Nat) : Byte := ⟨n % 256, Nat.mod_lt n (by decide)⟩

/-- web3.js `PublicKey`: the key is held as the 256-bit number `_bn`; `equals` compares it. -/
structure PublicKey where
  bn : Nat
  deriving DecidableEq, Repr

/-- The exceptions the client and the library calls it makes can throw. -/
inductive JsError
  /-- RangeError of a Buffer read or write outside the buffer or of a value outside the
  field range, and of `Blob.encode` (encoding overruns Buffer). -/
  | rangeError
  /-- TypeError of `Blob.encode`: the source is not a Buffer of the blob length. -/
  | typeError
  /-- Failed `assert` inside bn.js. -/
  | assertion
  /-- Error "Failed to find account" of `loadAccount`. -/
  | notFound
  /-- Error "Invalid owner: expected ..., found ..." of `loadAccount`. -/
  | invalidOwner (expected found : PublicKey)
  /-- Error "Invalid staking store state" of `loadStakingStore`. -/
  | invalidState
  /-- Error "Invalid public key input" of the `PublicKey` constructor. -/
  | invalidPublicKey
  /-- Error raised by `PublicKey.findProgramAddress` when no nonce gives an address. -/
  | noProgramAddress
  deriving DecidableEq, Repr

instance instDecidableEqExceptJsError {α : Type} [DecidableEq α] :
    DecidableEq (Except JsError α) := fun a b =>
  match a, b with
  | Except.ok x, Except.ok y =>
    if h : x = y then isTrue (by rw [h]) else isFalse (fun e => h (Except.ok.inj e))
  | Except.error x, Except.error y =>
    if h : x = y then isTrue (by rw [h]) else isFalse (fun e => h (Except.error.inj e))
  | Except.ok _, Except.error _ => isFalse (fun e => by cases e)
  | Except.error _, Except.ok _ => isFalse (fun e => by cases e)

/-- Models `Buffer.alloc(size)`: a zero-filled buffer. -/
def Buffer.alloc (size : Nat) : Buffer := List.replicate size 0

/-- Models `buf.slice(start, end)` for `start <= end`: the bytes in the index range, clamped to the
buffer (no exception when the range leaves the buffer). -/
def Buffer.slice (b : Buffer) (start stop : Nat) : Buffer := (b.drop start).take (stop - start)

/-- Overwrite the bytes of `b` from `offset` on with `src`; the callers have checked that
`offset + src.length <= b.length`. -/
def Buffer.write (b : Buffer) (src : Buffer) (offset : Nat) : Buffer :=
  b.take offset ++ src ++ b.drop (offset + src.length)

/-- The unsigned integer a byte sequence holds in little-endian order. -/
def leValue : Buffer → Nat
  | [] => 0
  | x :: xs => x.val + 256 * leValue xs

/-- The unsigned integer a byte sequence holds in big-endian order. -/
def beValue (b : Buffer) : Nat := b.foldl (fun acc x => acc * 256 + x.val) 0

/-- The `byteLength` low bytes of a number, least significant first. -/
def leBytes : Nat → Nat → Buffer
  | 0, _ => []
  | k + 1, v => byteOf v :: leBytes k (v / 256)

/-- Models `buf.readUIntLE(offset, byteLength)`: throws when the field leaves the buffer. -/
def Buffer.readUIntLE (b : Buffer) (offset byteLength : Nat) : Except JsError Nat :=
  if offset + byteLength ≤ b.length then
    pure (leValue (Buffer.slice b offset (offset + byteLength)))
  else throw JsError.rangeError

/-- Models `buf.writeUIntLE(value, offset, byteLength)`: throws when the value does not fit the
field or the field leaves the buffer. -/
def Buffer.writeUIntLE (b : Buffer) (value offset byteLength : Nat) : Except JsError Buffer :=
  if value < 256 ^ byteLength ∧ offset + byteLength ≤ b.length then
    pure (Buffer.write b (leBytes byteLength value) offset)
  else throw JsError.rangeError

/-! ## buffer-layout primitives -/

/-- Models `UInt.decode` of buffer-layout (`u8` has span 1, `u16` span 2). -/
def UInt.decode (span : Nat) (b : Buffer) (offset : Nat) : Except JsError Nat :=
  Buffer.readUIntLE b offset span

/-- Models `UInt.encode` of buffer-layout: writes the value, returns the span. -/
def UInt.encode (span : Nat) (src : Nat) (b : Buffer) (offset : Nat) :
    Except JsError (Buffer × Nat) := do
  let b ← Buffer.writeUIntLE b src offset span
  pure (b, span)

/-- Models `Blob.decode` of buffer-layout: `b.slice(offset, offset + span)`. -/
def Blob.decode (length : Nat) (b : Buffer) (offset : Nat) : Buffer :=
  Buffer.slice b offset (offset + length)

/-- Models `Blob.encode` of buffer-layout: the source must be a Buffer of exactly the blob
length and must fit the target. -/
def Blob.encode (length : Nat) (src : Buffer) (b : Buffer) (offset : Nat) :
    Except JsError (Buffer × Nat) :=
  if src.length ≠ length then throw JsError.typeError
  else if offset + length > b.length then throw JsError.rangeError
  else pure (Buffer.write b src offset, length)

/-- A field of a `Structure` as its `encode` sees it: the field's span and the field's
own `encode` applied to the value `src[fd.property]`. -/
structure Field where
  span : Nat
  encode : Buffer → Nat → Except JsError (Buffer × Nat)

/-- The span of a `Structure`: `fields.reduce((span, fd) => span + fd.getSpan(), 0)`. -/
def Structure.span (fields : List Nat) : Nat := fields.foldl (fun span fd => span + fd) 0

/-- The loop of `Structure.encode` over the fields, carrying `lastOffset` and
`lastWrote`. -/
def Structure.encodeLoop : List Field → Buffer → Nat → Nat → Nat →
    Except JsError (Buffer × Nat × Nat)
  | [], b, _, lastOffset, lastWrote => pure (b, lastOffset, lastWrote)
  | fd :: fds, b, offset, _, _ => do
    let (b, lastWrote) ← fd.encode b offset
    Structure.encodeLoop fds b (offset + fd.span) offset lastWrote

/-- Models `Structure.encode` of buffer-layout: returns `(lastOffset + lastWrote) - firstOffset`. -/
def Structure.encode (fields : List Field) (b : Buffer) (offset : Nat) :
    Except JsError (Buffer × Nat) := do
  let (b, lastOffset, lastWrote) ← Structure.encodeLoop fields b offset 0 0
  pure (b, (lastOffset + lastWrote) - offset)

/-- The span of a `Sequence` with a fixed count: `count * elementLayout.span`. Every
element layout of the client has a fixed, positive span, so the variable-length case of
the library (span -1) does not occur. -/
def Sequence.span (elementSpan count : Nat) : Nat := count * elementSpan

/-- Models `Sequence.decode` of buffer-layout: `count` elements, each decoded at the running
offset, which advances by the element span. -/
def Sequence.decode {α : Type} (elementDecode : Buffer → Nat → Except JsError α)
    (elementSpan : Nat) : Nat → Buffer → Nat → Except JsError (List α)
  | 0, _, _ => pure []
  | count + 1, b, offset => do
    let v ← elementDecode b offset
    let rest ← Sequence.decode elementDecode elementSpan count b (offset + elementSpan)
    pure (v :: rest)

/-- Models `Sequence.encode` of buffer-layout:
`src.reduce((span, v) => span + elo.encode(v, b, offset + span), 0)`. -/
def Sequence.encode {α : Type} (elo : α → Buffer → Nat → Except JsError (Buffer × Nat))
    (src : List α) (b : Buffer) (offset : Nat) : Except JsError (Buffer × Nat) :=
  src.foldlM
    (fun (acc : Buffer × Nat) v => do
      let (b, wrote) ← elo v acc.1 (offset + acc.2)
      pure (b, acc.2 + wrote))
    (b, 0)

/-! ## bn.js, as far as `new BN(amount).toArray("le", 8)` uses it -/

/-- The `amount` argument of a stake: a JavaScript number holding a non-negative integer
(the tests pass `1`), or an exact big integer (a `BN` instance or a decimal string). -/
inductive Amount
  | number (n : Nat)
  | big (n : Nat)
  deriving DecidableEq, Repr

/-- The integer an amount denotes. -/
def Amount.value : Amount → Nat
  | Amount.number n => n
  | Amount.big n => n

/-- Models `BN.prototype._initNumber`: the value assembled from 26-bit words; a number from
`2^53` on fails the assertion `number < 0x20000000000000`. -/
def BN.initNumber (number : Nat) : Except JsError Nat :=
  if number < 0x4000000 then
    pure (number % 0x4000000)
  else if number < 0x10000000000000 then
    pure (number % 0x4000000 + (number / 0x4000000 % 0x4000000) * 0x4000000)
  else if number < 0x20000000000000 then
    pure (number % 0x4000000 + (number / 0x4000000 % 0x4000000) * 0x4000000
      + 1 * 0x10000000000000)
  else throw JsError.assertion

/-- Models `new BN(amount)`: the value of the big integer. -/
def BN.new : Amount → Except JsError Nat
  | Amount.big n => pure n
  | Amount.number n => BN.initNumber n

/-- The number of significant bits of a number (`_countBits` over the words); the first
argument bounds the number of rounds. -/
def BN.countBits : Nat → Nat → Nat
  | 0, _ => 0
  | fuel + 1, w => if w = 0 then 0 else BN.countBits fuel (w / 2) + 1

/-- Models `BN.prototype.bitLength`. -/
def BN.bitLength (v : Nat) : Nat := BN.countBits v v

/-- Models `BN.prototype.byteLength`: `Math.ceil(this.bitLength() / 8)`. -/
def BN.byteLength (v : Nat) : Nat := (BN.bitLength v + 7) / 8

/-- The loop `for (i = 0; !q.isZero(); i++) { b = q.andln(0xff); q.iushrn(8); res[i] = b }`
of `toArrayLike`; the first argument bounds the number of rounds. -/
def BN.lowBytes : Nat → Nat → Buffer
  | 0, _ => []
  | fuel + 1, q => if q = 0 then [] else byteOf q :: BN.lowBytes fuel (q / 256)

/-- Models `BN.prototype.toArray("le", length)`: asserts `byteLength <= reqLength`, writes the
low bytes and pads with zeros up to `reqLength`. -/
def BN.toArray (v : Nat) (length : Nat) : Except JsError Buffer :=
  let byteLength := BN.byteLength v
  let reqLength := if length = 0 then max 1 byteLength else length
  if byteLength ≤ reqLength ∧ 0 < reqLength then
    let res := BN.lowBytes v v
    pure (res ++ List.replicate (reqLength - res.length) 0)
  else throw JsError.assertion

/-! ## Public keys and constants -/

/-- The base-58 alphabet of bs58. -/
def bs58Alphabet : List Char :=
  "123456789ABCDEFGHJKLMNPQRSTUVWXYZabcdefghijkmnopqrstuvwxyz".toList

/-- The number a base-58 string denotes. -/
def bs58Value (s : String) : Nat :=
  s.toList.foldl (fun acc c => acc * 58 + bs58Alphabet.indexOf c) 0

/-- Models `SYSVAR_CLOCK_PUBKEY` of web3.js. -/
def SYSVAR_CLOCK_PUBKEY : PublicKey := ⟨bs58Value "SysvarC1ock11111111111111111111111111111111"⟩

/-- Models `SYSVAR_RENT_PUBKEY` of web3.js. -/
def SYSVAR_RENT_PUBKEY : PublicKey := ⟨bs58Value "SysvarRent111111111111111111111111111111111"⟩

/-- Models `TOKEN_PROGRAM_ID` of constants.js. -/
def TOKEN_PROGRAM_ID : PublicKey := ⟨bs58Value "TokenkegQfeZyiNwAJbNbGKPFXCWuBvf9Ss623VQ5DA"⟩

/-- Models `MAX_STAKE_COUNT` of constants.js. -/
def MAX_STAKE_COUNT : Nat := 65535

/-- Models `new PublicKey(buffer)`: the bytes read as a big-endian number, rejected when the
number needs more than 32 bytes. -/
def PublicKey.ofBuffer (value : Buffer) : Except JsError PublicKey :=
  if BN.byteLength (beValue value) > 32 then throw JsError.invalidPublicKey
  else pure ⟨beValue value⟩

/-- Models `publicKey.toBuffer()`: the 32 bytes of the key, most significant first. -/
def PublicKey.toBuffer (k : PublicKey) : Buffer := (leBytes 32 k.bn).reverse

/-! ## instruction.js -/

/-- One entry of the `keys` of a `TransactionInstruction`. -/
structure AccountMeta where
  pubkey : PublicKey
  isSigner : Bool
  isWritable : Bool
  deriving DecidableEq, Repr

/-- web3.js `TransactionInstruction`. -/
structure TransactionInstruction where
  keys : List AccountMeta
  programId : PublicKey
  data : Buffer
  deriving DecidableEq, Repr

/-- Span of `BufferLayout.u8`. -/
def u8Span : Nat := 1

/-- Span of `BufferLayout.u16`. -/
def u16Span : Nat := 2

/-- Span of `PublicKeyLayout`: `BufferLayout.blob(32, property)`. -/
def PublicKeyLayout.span : Nat := 32

/-- Span of `Uint64Layout`: `BufferLayout.blob(8, property)`. -/
def Uint64Layout.span : Nat := 8

/-- Models `createInitStakingInstruction` of instruction.js. -/
def createInitStakingInstruction (stakeStoreKey stakeListKey managerKey
    stakingProgramId : PublicKey) : Except JsError TransactionInstruction := do
  let data := Buffer.alloc (Structure.span [u8Span])
  let (data, encodeLength) ← Structure.encode [⟨u8Span, UInt.encode u8Span 0⟩] data 0
  let keys : List AccountMeta := [
    ⟨stakeStoreKey, false, true⟩,
    ⟨stakeListKey, false, true⟩,
    ⟨managerKey, true, false⟩,
    ⟨SYSVAR_RENT_PUBKEY, false, false⟩]
  pure ⟨keys, stakingProgramId, Buffer.slice data 0 encodeLength⟩

/-- Models `stakeInstruction` of instruction.js. -/
def stakeInstruction (userKey mintKey stakeKey stakeStoreKey stakeListKey
    tokenProgramId : PublicKey) (amount : Amount) (stakingProgramId : PublicKey) :
    Except JsError TransactionInstruction := do
  let data := Buffer.alloc (Structure.span [u8Span, Uint64Layout.span])
  let bn ← BN.new amount
  let amountBytes ← BN.toArray bn 8
  let (data, encodeLength) ← Structure.encode
    [⟨u8Span, UInt.encode u8Span 1⟩,
     ⟨Uint64Layout.span, Blob.encode Uint64Layout.span amountBytes⟩] data 0
  let keys : List AccountMeta := [
    ⟨userKey, true, false⟩,
    ⟨mintKey, false, false⟩,
    ⟨SYSVAR_CLOCK_PUBKEY, false, false⟩,
    ⟨stakeKey, false, true⟩,
    ⟨stakeStoreKey, false, true⟩,
    ⟨stakeListKey, false, true⟩,
    ⟨tokenProgramId, false, false⟩]
  pure ⟨keys, stakingProgramId, Buffer.slice data 0 encodeLength⟩

/-- Models `reclaimInstruction` of instruction.js. -/
def reclaimInstruction (userKey mintKey stakeStoreKey stakeListKey stakeKey pdaStakeKey
    tokenProgramId stakingProgramId : PublicKey) : Except JsError TransactionInstruction := do
  let data := Buffer.alloc (Structure.span [u8Span])
  let (data, _) ← Structure.encode [⟨u8Span, UInt.encode u8Span 2⟩] data 0
  let keys : List AccountMeta := [
    ⟨userKey, true, false⟩,
    ⟨mintKey, false, false⟩,
    ⟨SYSVAR_CLOCK_PUBKEY, false, false⟩,
    ⟨stakeStoreKey, false, false⟩,
    ⟨stakeListKey, false, false⟩,
    ⟨stakeKey, false, false⟩,
    ⟨pdaStakeKey, false, false⟩,
    ⟨tokenProgramId, false, false⟩]
  pure ⟨keys, stakingProgramId, data⟩


/-! ## layout.js -/

/-- The object `StakeStoreLayout.decode` returns. -/
structure StakeStoreData where
  isInitialized : Nat
  manager : Buffer
  stakedCount : Nat
  stakeList : Buffer
  deriving DecidableEq, Repr

/-- The `header` object of a decoded stake list. -/
structure StakeListHeader where
  isInitialized : Nat
  maxItems : Nat
  count : Nat
  deriving DecidableEq, Repr

/-- One element of the `items` of a decoded stake list. -/
structure StakeItem where
  owner : Buffer
  tokenMint : Buffer
  holder : Buffer
  stakeTime : Buffer
  deriving DecidableEq, Repr

/-- The object `StakeListLayout(n).decode` returns. -/
structure StakeListData where
  header : StakeListHeader
  items : List StakeItem
  deriving DecidableEq, Repr

/-- Models `StakeStoreLayout.span`: the struct of `u8 isInitialized`, `PublicKeyLayout manager`,
`u16 stakedCount`, `PublicKeyLayout stakeList`. -/
def StakeStoreLayout.span : Nat :=
  Structure.span [u8Span, PublicKeyLayout.span, u16Span, PublicKeyLayout.span]

/-- Models `StakeStoreLayout.decode(b, offset)`: `Structure.decode` over the four fields, each
read at the running offset, which advances by the field span. -/
def StakeStoreLayout.decode (b : Buffer) (offset : Nat) : Except JsError StakeStoreData := do
  let isInitialized ← UInt.decode u8Span b offset
  let offset := offset + u8Span
  let manager := Blob.decode PublicKeyLayout.span b offset
  let offset := offset + PublicKeyLayout.span
  let stakedCount ← UInt.decode u16Span b offset
  let offset := offset + u16Span
  let stakeList := Blob.decode PublicKeyLayout.span b offset
  pure ⟨isInitialized, manager, stakedCount, stakeList⟩

/-- Models `StakeStoreLayout.encode(src, b, offset)`. -/
def StakeStoreLayout.encode (src : StakeStoreData) (b : Buffer) (offset : Nat) :
    Except JsError (Buffer × Nat) :=
  Structure.encode
    [⟨u8Span, UInt.encode u8Span src.isInitialized⟩,
     ⟨PublicKeyLayout.span, Blob.encode PublicKeyLayout.span src.manager⟩,
     ⟨u16Span, UInt.encode u16Span src.stakedCount⟩,
     ⟨PublicKeyLayout.span, Blob.encode PublicKeyLayout.span src.stakeList⟩] b offset

/-- Span of `StakeListHeaderLayout`: the struct of `u8 isInitialized`, `u16 maxItems`,
`u16 count`. -/
def StakeListHeaderLayout.span : Nat := Structure.span [u8Span, u16Span, u16Span]

/-- Models `StakeListHeaderLayout(property).decode(b, offset)`. -/
def StakeListHeaderLayout.decode (b : Buffer) (offset : Nat) :
    Except JsError StakeListHeader := do
  let isInitialized ← UInt.decode u8Span b offset
  let offset := offset + u8Span
  let maxItems ← UInt.decode u16Span b offset
  let offset := offset + u16Span
  let count ← UInt.decode u16Span b offset
  pure ⟨isInitialized, maxItems, count⟩

/-- Models `StakeListHeaderLayout(property).encode(src, b, offset)`. -/
def StakeListHeaderLayout.encode (src : StakeListHeader) (b : Buffer) (offset : Nat) :
    Except JsError (Buffer × Nat) :=
  Structure.encode
    [⟨u8Span, UInt.encode u8Span src.isInitialized⟩,
     ⟨u16Span, UInt.encode u16Span src.maxItems⟩,
     ⟨u16Span, UInt.encode u16Span src.count⟩] b offset

/-- Models `StakeItemLayout.span`: the struct of three `PublicKeyLayout` (owner, tokenMint,
holder) and `Uint64Layout stakeTime`. -/
def StakeItemLayout.span : Nat :=
  Structure.span [PublicKeyLayout.span, PublicKeyLayout.span, PublicKeyLayout.span,
    Uint64Layout.span]

/-- Models `StakeItemLayout.decode(b, offset)`: four blobs, none of which can throw. -/
def StakeItemLayout.decode (b : Buffer) (offset : Nat) : Except JsError StakeItem := do
  let owner := Blob.decode PublicKeyLayout.span b offset
  let offset := offset + PublicKeyLayout.span
  let tokenMint := Blob.decode PublicKeyLayout.span b offset
  let offset := offset + PublicKeyLayout.span
  let holder := Blob.decode PublicKeyLayout.span b offset
  let offset := offset + PublicKeyLayout.span
  let stakeTime := Blob.decode Uint64Layout.span b offset
  pure ⟨owner, tokenMint, holder, stakeTime⟩

/-- Models `StakeItemLayout.encode(src, b, offset)`. -/
def StakeItemLayout.encode (src : StakeItem) (b : Buffer) (offset : Nat) :
    Except JsError (Buffer × Nat) :=
  Structure.encode
    [⟨PublicKeyLayout.span, Blob.encode PublicKeyLayout.span src.owner⟩,
     ⟨PublicKeyLayout.span, Blob.encode PublicKeyLayout.span src.tokenMint⟩,
     ⟨PublicKeyLayout.span, Blob.encode PublicKeyLayout.span src.holder⟩,
     ⟨Uint64Layout.span, Blob.encode Uint64Layout.span src.stakeTime⟩] b offset

/-- Models `StakeListLayout(n).span`: the struct of the header and
`BufferLayout.seq(StakeItemLayout, n, "items")`. -/
def StakeListLayout.span (n : Nat) : Nat :=
  Structure.span [StakeListHeaderLayout.span, Sequence.span StakeItemLayout.span n]

/-- Models `StakeListLayout(n).decode(b, offset)`: the header, then `n` items. -/
def StakeListLayout.decode (n : Nat) (b : Buffer) (offset : Nat) :
    Except JsError StakeListData := do
  let header ← StakeListHeaderLayout.decode b offset
  let offset := offset + StakeListHeaderLayout.span
  let items ← Sequence.decode StakeItemLayout.decode StakeItemLayout.span n b offset
  pure ⟨header, items⟩

/-- Models `StakeListLayout(n).encode(src, b, offset)`. -/
def StakeListLayout.encode (n : Nat) (src : StakeListData) (b : Buffer) (offset : Nat) :
    Except JsError (Buffer × Nat) :=
  Structure.encode
    [⟨StakeListHeaderLayout.span, StakeListHeaderLayout.encode src.header⟩,
     ⟨Sequence.span StakeItemLayout.span n,
      Sequence.encode StakeItemLayout.encode src.items⟩] b offset

/-! ## util/account.js -/

/-- What `connection.getAccountInfo` returns for an existing account, as far as the
client reads it. -/
structure AccountInfo where
  owner : PublicKey
  data : Buffer
  deriving DecidableEq, Repr

/-- The RPC connection, as far as the client calls it: `getAccountInfo` (null for an
account that does not exist) and `getMinimumBalanceForRentExemption`. -/
structure Connection where
  getAccountInfo : PublicKey → Option AccountInfo
  getMinimumBalanceForRentExemption : Nat → Nat

/-- Models `loadAccount` of util/account.js. -/
def loadAccount (connection : Connection) (address programId : PublicKey) :
    Except JsError Buffer :=
  match connection.getAccountInfo address with
  | none => throw JsError.notFound
  | some accountInfo =>
    if accountInfo.owner ≠ programId then
      throw (JsError.invalidOwner programId accountInfo.owner)
    else pure accountInfo.data

/-! ## staking-store.js -/

/-- The fields of the class `StakeStore`. -/
structure StakeStore where
  stakingProgramId : PublicKey
  tokenProgramId : PublicKey
  stakeStoreKey : PublicKey
  stakeListKey : PublicKey
  managerKey : PublicKey
  deriving DecidableEq, Repr

/-- The constructor of `StakeStore`; the connection is not stored. -/
def StakeStore.new (_connection : Connection) (stakingProgramId stakeStoreKey stakeListKey
    tokenProgramId managerKey : PublicKey) : StakeStore :=
  { stakingProgramId := stakingProgramId
    tokenProgramId := tokenProgramId
    stakeStoreKey := stakeStoreKey
    stakeListKey := stakeListKey
    managerKey := managerKey }

/-- Models `StakeStore.getMinBlanaceRentForExemptStakingStore`. -/
def StakeStore.getMinBlanaceRentForExemptStakingStore (connection : Connection) : Nat :=
  connection.getMinimumBalanceForRentExemption StakeStoreLayout.span

/-- Models `StakeStore.getMinBlanaceRentForExemptStakingList`. -/
def StakeStore.getMinBlanaceRentForExemptStakingList (connection : Connection) : Nat :=
  connection.getMinimumBalanceForRentExemption (StakeListLayout.span MAX_STAKE_COUNT)

/-- Models `StakeStore.loadStakingStore`. The first argument stands for
`PublicKey.findProgramAddress` of web3.js (seeds and program id to address and nonce,
nothing when no nonce gives an address). The condition `!stakingStoreData.isInitialized`
holds of the number 0 only. The arguments of the constructor call are in the order of
the source. -/
def StakeStore.loadStakingStore
    (findProgramAddress : List Buffer → PublicKey → Option (PublicKey × Nat))
    (connection : Connection) (storeKey programId : PublicKey) : Except JsError StakeStore := do
  let data ← loadAccount connection storeKey programId
  let stakingStoreData ← StakeStoreLayout.decode data 0
  if stakingStoreData.isInitialized = 0 then
    throw JsError.invalidState
  else
    match findProgramAddress [storeKey.toBuffer] programId with
    | none => throw JsError.noProgramAddress
    | some (authorityKey, _) =>
      let manager ← PublicKey.ofBuffer stakingStoreData.manager
      let _stakeList ← PublicKey.ofBuffer stakingStoreData.stakeList
      let tokenProgramId := TOKEN_PROGRAM_ID
      pure (StakeStore.new connection programId storeKey tokenProgramId authorityKey manager)

/-- web3.js `Keypair`, as far as the client reads it. -/
structure Keypair where
  publicKey : PublicKey
  deriving DecidableEq, Repr

/-- web3.js `Transaction`: the instructions added so far. -/
structure Transaction where
  instructions : List TransactionInstruction
  deriving DecidableEq, Repr

/-- Models `new Transaction().add(instruction)`. -/
def Transaction.add (t : Transaction) (instruction : TransactionInstruction) : Transaction :=
  ⟨t.instructions ++ [instruction]⟩

/-- Models `StakeStore.prototype.stake`. -/
def StakeStore.stake (self : StakeStore) (userKeypair mintKeyapir : Keypair)
    (stakeKey : PublicKey) (nftAmount : Amount) : Except JsError Transaction := do
  let instruction ← stakeInstruction userKeypair.publicKey mintKeyapir.publicKey stakeKey
    self.stakeStoreKey self.stakeListKey self.tokenProgramId nftAmount self.stakingProgramId
  pure (Transaction.add ⟨[]⟩ instruction)

/-- Models `StakeStore.prototype.reclaim`. -/
def StakeStore.reclaim (self : StakeStore) (userAccountNFT : PublicKey)
    (mintAccount stakeAccount pdaStakeAccount : Keypair) : Except JsError Transaction := do
  let instruction ← reclaimInstruction userAccountNFT mintAccount.publicKey
    self.stakeStoreKey self.stakeListKey stakeAccount.publicKey pdaStakeAccount.publicKey
    self.tokenProgramId self.stakingProgramId
  pure (Transaction.add ⟨[]⟩ instruction)

/-! ## Notions used in the proofs -/

/-- An encoder writes `bytes`, of its span, over the place of its field and leaves the
rest of the buffer as it is. -/
def EncodesAs (enc : Buffer → Nat → Except JsError (Buffer × Nat)) (span : Nat)
    (bytes : Buffer) : Prop :=
  bytes.length = span ∧
  ∀ pre mid post : Buffer, mid.length = span →
    enc (pre ++ mid ++ post) pre.length = Except.ok (pre ++ bytes ++ post, span)

/-- A decoder reads the value `v` from `bytes`, wherever they stand in a buffer. -/
def DecodesAs {α : Type} (dec : Buffer → Nat → Except JsError α) (bytes : Buffer)
    (v : α) : Prop :=
  ∀ pre post : Buffer, dec (pre ++ bytes ++ post) pre.length = Except.ok v

/-- The 104 bytes of an item, field after field. -/
def StakeItem.bytes (x : StakeItem) : Buffer :=
  x.owner ++ (x.tokenMint ++ (x.holder ++ x.stakeTime))

/-! ## Properties of the amount encoding and of the instruction builders -/

theorem leValue_append_zeros (xs : Buffer) (n : Nat) :
    leValue (xs ++ List.replicate n 0) = leValue xs := by
  induction xs with
  | nil =>
    induction n with
    | zero => rfl
    | succ n ih => simpa [List.replicate_succ, leValue] using ih
  | cons x xs ih => simp [leValue, ih]

theorem leBytes_length (k v : Nat) : (leBytes k v).length = k := by
  induction k generalizing v with
  | zero => rfl
  | succ k ih => simp [leBytes, ih]

theorem leValue_leBytes (k v : Nat) : leValue (leBytes k v) = v % 256 ^ k := by
  induction k generalizing v with
  | zero => simp [leBytes, leValue, Nat.mod_one]
  | succ k ih =>
    simp only [leBytes, leValue, ih, byteOf]
    rw [pow_succ', Nat.mod_mul]

theorem leBytes_zero (k : Nat) : leBytes k 0 = List.replicate k 0 := by
  induction k with
  | zero => rfl
  | succ k ih => simp [leBytes, ih, List.replicate_succ, byteOf]

theorem lowBytes_pad (k : Nat) : ∀ fuel v : Nat, v ≤ fuel → v < 256 ^ k →
    BN.lowBytes fuel v ++ List.replicate (k - (BN.lowBytes fuel v).length) 0 = leBytes k v := by
  induction k with
  | zero =>
    intro fuel v _ hv
    have : v = 0 := by simpa using hv
    subst this
    cases fuel <;> simp [BN.lowBytes, leBytes]
  | succ k ih =>
    intro fuel v hf hv
    by_cases h0 : v = 0
    · subst h0
      cases fuel <;> simp [BN.lowBytes, leBytes_zero]
    · cases fuel with
      | zero => omega
      | succ fuel =>
        have h1 : v / 256 ≤ fuel := by omega
        have h2 : v / 256 < 256 ^ k := by
          rw [pow_succ] at hv
          exact Nat.div_lt_of_lt_mul (by omega)
        simp [BN.lowBytes, h0, leBytes, ih fuel (v / 256) h1 h2]

theorem countBits_le (fuel : Nat) : ∀ v k : Nat, v ≤ fuel →
    (BN.countBits fuel v ≤ k ↔ v < 2 ^ k) := by
  induction fuel with
  | zero =>
    intro v k hv
    have := Nat.two_pow_pos k
    simp [BN.countBits]; omega
  | succ fuel ih =>
    intro v k hv
    by_cases h0 : v = 0
    · have := Nat.two_pow_pos k
      simp [BN.countBits, h0]
    · simp only [BN.countBits, h0, if_false]
      cases k with
      | zero => simp; omega
      | succ k =>
        rw [Nat.add_le_add_iff_right, ih (v / 2) k (by omega), pow_succ]
        omega

theorem byteLength_le (v k : Nat) : BN.byteLength v ≤ k ↔ v < 256 ^ k := by
  have h := countBits_le v v (8 * k) (le_refl v)
  have e : (256 : Nat) ^ k = 2 ^ (8 * k) := by
    rw [pow_mul]; norm_num
  rw [e, ← h]
  unfold BN.byteLength BN.bitLength
  omega

theorem BN_toArray_ok (v : Nat) (h : v < 2 ^ 64) : BN.toArray v 8 = Except.ok (leBytes 8 v) := by
  have hb : BN.byteLength v ≤ 8 := (byteLength_le v 8).2 (by norm_num; omega)
  unfold BN.toArray
  simp only [show (8 : Nat) ≠ 0 by decide, if_false, hb, true_and, Nat.lt_irrefl]
  simp [lowBytes_pad 8 v v (le_refl v) (by norm_num; omega), pure, Except.pure]

theorem BN_toArray_error (v : Nat) (h : 2 ^ 64 ≤ v) :
    BN.toArray v 8 = Except.error JsError.assertion := by
  have hb : ¬ BN.byteLength v ≤ 8 := by
    rw [byteLength_le]; norm_num; omega
  unfold BN.toArray
  simp [hb, throw, throwThe, MonadExceptOf.throw]

theorem BN_initNumber_ok (n : Nat) (h : n < 2 ^ 53) : BN.initNumber n = Except.ok n := by
  unfold BN.initNumber
  split
  · rw [Nat.mod_eq_of_lt (by assumption)]; rfl
  · split
    · simp only [pure, Except.pure]; congr 1; omega
    · split
      · simp only [pure, Except.pure]; congr 1; omega
      · omega

theorem BN_initNumber_error (n : Nat) (h : 2 ^ 53 ≤ n) :
    BN.initNumber n = Except.error JsError.assertion := by
  unfold BN.initNumber
  rw [if_neg (by omega), if_neg (by omega), if_neg (by omega)]
  rfl

theorem stakeInstruction_ok (userKey mintKey stakeKey stakeStoreKey stakeListKey
    tokenProgramId : PublicKey) (amount : Amount) (stakingProgramId : PublicKey) (bn : Nat)
    (hbn : BN.new amount = Except.ok bn) (h : bn < 2 ^ 64) :
    stakeInstruction userKey mintKey stakeKey stakeStoreKey stakeListKey tokenProgramId amount
        stakingProgramId
      = Except.ok ⟨[⟨userKey, true, false⟩, ⟨mintKey, false, false⟩,
          ⟨SYSVAR_CLOCK_PUBKEY, false, false⟩, ⟨stakeKey, false, true⟩,
          ⟨stakeStoreKey, false, true⟩, ⟨stakeListKey, false, true⟩,
          ⟨tokenProgramId, false, false⟩], stakingProgramId, 1 :: leBytes 8 bn⟩ := by
  unfold stakeInstruction
  rw [hbn]
  simp only [bind, Except.bind, BN_toArray_ok bn h]
  rfl

theorem BN_new_ok (amount : Amount) (hnumber : ∀ n, amount = Amount.number n → n < 2 ^ 53) :
    BN.new amount = Except.ok amount.value := by
  cases amount with
  | number n => exact BN_initNumber_ok n (hnumber n rfl)
  | big n => rfl

theorem stakeInstruction_error_of_new (userKey mintKey stakeKey stakeStoreKey stakeListKey
    tokenProgramId : PublicKey) (amount : Amount) (stakingProgramId : PublicKey) (e : JsError)
    (hbn : BN.new amount = Except.error e) :
    stakeInstruction userKey mintKey stakeKey stakeStoreKey stakeListKey tokenProgramId amount
        stakingProgramId = Except.error e := by
  unfold stakeInstruction
  rw [hbn]
  rfl

theorem stakeInstruction_error_of_toArray (userKey mintKey stakeKey stakeStoreKey stakeListKey
    tokenProgramId : PublicKey) (amount : Amount) (stakingProgramId : PublicKey) (bn : Nat)
    (hbn : BN.new amount = Except.ok bn) (h : 2 ^ 64 ≤ bn) :
    stakeInstruction userKey mintKey stakeKey stakeStoreKey stakeListKey tokenProgramId amount
        stakingProgramId = Except.error JsError.assertion := by
  unfold stakeInstruction
  rw [hbn]
  simp only [bind, Except.bind, BN_toArray_error bn h]

/-- C1 (as amended): for every choice of keys and every amount below 2^64 that is given as
an exact big integer, or as a JavaScript number below 2^53, `stakeInstruction` returns an
instruction whose programId is stakingProgramId, whose seven account references are
userKey (signer), mintKey, the clock sysvar, stakeKey (writable), stakeStoreKey (writable),
stakeListKey (writable) and tokenProgramId in this order, and whose data has 9 bytes:
the opcode 1, then the eight little-endian bytes of the amount, which read back as
exactly the amount. -/
theorem stakeInstruction_shape (userKey mintKey stakeKey stakeStoreKey stakeListKey
    tokenProgramId : PublicKey) (amount : Amount) (stakingProgramId : PublicKey)
    (hrange : amount.value < 2 ^ 64)
    (hnumber : ∀ n, amount = Amount.number n → n < 2 ^ 53) :
    ∃ data : Buffer,
      stakeInstruction userKey mintKey stakeKey stakeStoreKey stakeListKey tokenProgramId
          amount stakingProgramId
        = Except.ok ⟨[⟨userKey, true, false⟩, ⟨mintKey, false, false⟩,
            ⟨SYSVAR_CLOCK_PUBKEY, false, false⟩, ⟨stakeKey, false, true⟩,
            ⟨stakeStoreKey, false, true⟩, ⟨stakeListKey, false, true⟩,
            ⟨tokenProgramId, false, false⟩], stakingProgramId, data⟩ ∧
      data.length = 9 ∧ data.head? = some 1 ∧
      data.drop 1 = leBytes 8 amount.value ∧ leValue (data.drop 1) = amount.value := by
  refine ⟨1 :: leBytes 8 amount.value, ?_, ?_, rfl, rfl, ?_⟩
  · exact stakeInstruction_ok _ _ _ _ _ _ amount _ amount.value (BN_new_ok amount hnumber) hrange
  · simp [leBytes_length]
  · rw [List.drop_one, List.tail_cons, leValue_leBytes]
    exact Nat.mod_eq_of_lt (by norm_num; omega)

/-- C1, instances: the amount 2^63 + 12345 given as a big integer, and the amount 1 given
as a JavaScript number, as the tests pass it. -/
theorem stakeInstruction_shape_witness :
    (∃ data : Buffer,
      stakeInstruction ⟨11⟩ ⟨12⟩ ⟨13⟩ ⟨14⟩ ⟨15⟩ ⟨16⟩ (Amount.big (2 ^ 63 + 12345)) ⟨17⟩
        = Except.ok ⟨[⟨⟨11⟩, true, false⟩, ⟨⟨12⟩, false, false⟩,
            ⟨SYSVAR_CLOCK_PUBKEY, false, false⟩, ⟨⟨13⟩, false, true⟩,
            ⟨⟨14⟩, false, true⟩, ⟨⟨15⟩, false, true⟩,
            ⟨⟨16⟩, false, false⟩], ⟨17⟩, data⟩ ∧
      data.length = 9 ∧ data.head? = some 1 ∧
      data.drop 1 = leBytes 8 (Amount.big (2 ^ 63 + 12345)).value ∧
      leValue (data.drop 1) = (Amount.big (2 ^ 63 + 12345)).value) ∧
    (∃ data : Buffer,
      stakeInstruction ⟨11⟩ ⟨12⟩ ⟨13⟩ ⟨14⟩ ⟨15⟩ ⟨16⟩ (Amount.number 1) ⟨17⟩
        = Except.ok ⟨[⟨⟨11⟩, true, false⟩, ⟨⟨12⟩, false, false⟩,
            ⟨SYSVAR_CLOCK_PUBKEY, false, false⟩, ⟨⟨13⟩, false, true⟩,
            ⟨⟨14⟩, false, true⟩, ⟨⟨15⟩, false, true⟩,
            ⟨⟨16⟩, false, false⟩], ⟨17⟩, data⟩ ∧
      data.length = 9 ∧ data.head? = some 1 ∧
      data.drop 1 = leBytes 8 (Amount.number 1).value ∧
      leValue (data.drop 1) = (Amount.number 1).value) :=
  ⟨stakeInstruction_shape ⟨11⟩ ⟨12⟩ ⟨13⟩ ⟨14⟩ ⟨15⟩ ⟨16⟩ (Amount.big (2 ^ 63 + 12345)) ⟨17⟩
      (by decide) (by intro n h; cases h),
   stakeInstruction_shape ⟨11⟩ ⟨12⟩ ⟨13⟩ ⟨14⟩ ⟨15⟩ ⟨16⟩ (Amount.number 1) ⟨17⟩
      (by decide) (by intro n h; cases h; decide)⟩

/-- C1 as stated fails: the amount 2^53 = 9007199254740992, below 2^64, passed as a
JavaScript number makes `new BN(amount)` fail its assertion, and no instruction is
returned. -/
theorem stakeInstruction_number_two_pow_53 :
    (Amount.number 9007199254740992).value < 2 ^ 64 ∧
    stakeInstruction ⟨11⟩ ⟨12⟩ ⟨13⟩ ⟨14⟩ ⟨15⟩ ⟨16⟩ (Amount.number 9007199254740992) ⟨17⟩
      = Except.error JsError.assertion := by
  decide

/-- C2: for every choice of keys `createInitStakingInstruction` returns an instruction
whose programId is stakingProgramId, whose data is the single byte 0 and whose account
references are stakeStoreKey (writable), stakeListKey (writable), managerKey (signer,
not writable) and the rent sysvar (neither), in this order. -/
theorem createInitStakingInstruction_shape (stakeStoreKey stakeListKey managerKey
    stakingProgramId : PublicKey) :
    createInitStakingInstruction stakeStoreKey stakeListKey managerKey stakingProgramId
      = Except.ok ⟨[⟨stakeStoreKey, false, true⟩, ⟨stakeListKey, false, true⟩,
          ⟨managerKey, true, false⟩, ⟨SYSVAR_RENT_PUBKEY, false, false⟩],
          stakingProgramId, [0]⟩ := by
  rfl

/-- C3: for every choice of keys `reclaimInstruction` returns an instruction whose
programId is stakingProgramId, whose data is the single byte 2 and whose account
references are userKey, mintKey, the clock sysvar, stakeStoreKey, stakeListKey, stakeKey,
pdaStakeKey and tokenProgramId in this order; only userKey is a signer and none is
writable. -/
theorem reclaimInstruction_shape (userKey mintKey stakeStoreKey stakeListKey stakeKey
    pdaStakeKey tokenProgramId stakingProgramId : PublicKey) :
    reclaimInstruction userKey mintKey stakeStoreKey stakeListKey stakeKey pdaStakeKey
        tokenProgramId stakingProgramId
      = Except.ok ⟨[⟨userKey, true, false⟩, ⟨mintKey, false, false⟩,
          ⟨SYSVAR_CLOCK_PUBKEY, false, false⟩, ⟨stakeStoreKey, false, false⟩,
          ⟨stakeListKey, false, false⟩, ⟨stakeKey, false, false⟩,
          ⟨pdaStakeKey, false, false⟩, ⟨tokenProgramId, false, false⟩],
          stakingProgramId, [2]⟩ := by
  rfl

/-- C4 (as amended): `stakeInstruction` fails exactly when the amount is 2^64 or more, or
is a JavaScript number of 2^53 or more; in particular it fails for every amount from 2^64
on and succeeds for every exact big integer below 2^64. Whenever it returns an
instruction, the data has 9 bytes and the eight amount bytes read back as exactly the
amount: nothing is truncated or wrapped modulo 2^64. -/
theorem stakeInstruction_fails_iff (userKey mintKey stakeKey stakeStoreKey stakeListKey
    tokenProgramId : PublicKey) (amount : Amount) (stakingProgramId : PublicKey) :
    ((∃ e, stakeInstruction userKey mintKey stakeKey stakeStoreKey stakeListKey
        tokenProgramId amount stakingProgramId = Except.error e) ↔
      (2 ^ 64 ≤ amount.value ∨ ∃ n, amount = Amount.number n ∧ 2 ^ 53 ≤ n)) ∧
    (∀ ix, stakeInstruction userKey mintKey stakeKey stakeStoreKey stakeListKey
        tokenProgramId amount stakingProgramId = Except.ok ix →
      ix.data.length = 9 ∧ leValue (ix.data.drop 1) = amount.value) := by
  by_cases hnum : ∀ n, amount = Amount.number n → n < 2 ^ 53
  · by_cases hrange : amount.value < 2 ^ 64
    · have hok := stakeInstruction_ok userKey mintKey stakeKey stakeStoreKey stakeListKey
        tokenProgramId amount stakingProgramId amount.value (BN_new_ok amount hnum) hrange
      rw [hok]
      refine And.intro (Iff.intro ?_ ?_) ?_
      · rintro ⟨e, he⟩
        cases he
      · rintro (h | ⟨n, hn, h⟩)
        · omega
        · have := hnum n hn; omega
      · intro ix hix
        cases hix
        refine ⟨by simp [leBytes_length], ?_⟩
        rw [List.drop_one, List.tail_cons, leValue_leBytes]
        exact Nat.mod_eq_of_lt (by norm_num; omega)
    · have herr := stakeInstruction_error_of_toArray userKey mintKey stakeKey stakeStoreKey
        stakeListKey tokenProgramId amount stakingProgramId amount.value
        (BN_new_ok amount hnum) (by omega)
      rw [herr]
      exact ⟨⟨fun _ => Or.inl (by omega), fun _ => ⟨_, rfl⟩⟩, fun ix hix => by cases hix⟩
  · have hex : ∃ n, amount = Amount.number n ∧ 2 ^ 53 ≤ n := by
      by_contra hcon
      exact hnum (fun n hn => by
        by_contra hlt
        exact hcon ⟨n, hn, by omega⟩)
    obtain ⟨n, hn, hle⟩ := hex
    have herr := stakeInstruction_error_of_new userKey mintKey stakeKey stakeStoreKey
      stakeListKey tokenProgramId amount stakingProgramId JsError.assertion
      (by rw [hn]; exact BN_initNumber_error n hle)
    rw [herr]
    exact ⟨⟨fun _ => Or.inr ⟨n, hn, hle⟩, fun _ => ⟨_, rfl⟩⟩, fun ix hix => by cases hix⟩

/-- C4, instances: the big integer 2^64 is rejected, and the big integer 2^64 - 1 gives an
instruction whose amount bytes read back as 2^64 - 1. -/
theorem stakeInstruction_fails_iff_witness :
    (∃ e, stakeInstruction ⟨11⟩ ⟨12⟩ ⟨13⟩ ⟨14⟩ ⟨15⟩ ⟨16⟩ (Amount.big (2 ^ 64)) ⟨17⟩
      = Except.error e) ∧
    (∀ ix, stakeInstruction ⟨11⟩ ⟨12⟩ ⟨13⟩ ⟨14⟩ ⟨15⟩ ⟨16⟩ (Amount.big (2 ^ 64 - 1)) ⟨17⟩
        = Except.ok ix →
      ix.data.length = 9 ∧ leValue (ix.data.drop 1) = 2 ^ 64 - 1) :=
  ⟨(stakeInstruction_fails_iff ⟨11⟩ ⟨12⟩ ⟨13⟩ ⟨14⟩ ⟨15⟩ ⟨16⟩ (Amount.big (2 ^ 64)) ⟨17⟩).1.2
      (Or.inl (by decide)),
   (stakeInstruction_fails_iff ⟨11⟩ ⟨12⟩ ⟨13⟩ ⟨14⟩ ⟨15⟩ ⟨16⟩ (Amount.big (2 ^ 64 - 1)) ⟨17⟩).2⟩

/-- C4 as stated fails: the amount 2^60 = 1152921504606846976, below 2^64, passed as a
JavaScript number is rejected. -/
theorem stakeInstruction_number_two_pow_60 :
    (Amount.number 1152921504606846976).value < 2 ^ 64 ∧
    ∃ e, stakeInstruction ⟨11⟩ ⟨12⟩ ⟨13⟩ ⟨14⟩ ⟨15⟩ ⟨16⟩ (Amount.number 1152921504606846976) ⟨17⟩
      = Except.error e :=
  ⟨by decide, JsError.assertion, by decide⟩

/-! ## Properties of the record layouts and of the store -/

theorem slice_one (b : Buffer) (i : Nat) (h : i < b.length) :
    Buffer.slice b i (i + 1) = [b[i]] := by
  unfold Buffer.slice
  rw [Nat.add_sub_cancel_left, List.drop_eq_getElem_cons h]
  rfl

theorem slice_two (b : Buffer) (i : Nat) (h : i + 1 < b.length) :
    Buffer.slice b i (i + 2) = [b[i], b[i + 1]] := by
  unfold Buffer.slice
  rw [Nat.add_sub_cancel_left, List.drop_eq_getElem_cons (by omega : i < b.length),
    List.drop_eq_getElem_cons h]
  rfl

theorem readUIntLE_one (b : Buffer) (i : Nat) (h : i < b.length) :
    Buffer.readUIntLE b i 1 = Except.ok b[i].val := by
  unfold Buffer.readUIntLE
  rw [if_pos (by omega), slice_one b i h]
  simp [leValue, pure, Except.pure]

theorem readUIntLE_two (b : Buffer) (i : Nat) (h : i + 1 < b.length) :
    Buffer.readUIntLE b i 2 = Except.ok (b[i].val + 256 * b[i + 1].val) := by
  unfold Buffer.readUIntLE
  rw [if_pos (by omega), slice_two b i h]
  simp [leValue, pure, Except.pure]

theorem slice_length (b : Buffer) (i len : Nat) (h : i + len ≤ b.length) :
    (Buffer.slice b i (i + len)).length = len := by
  unfold Buffer.slice
  simp
  omega

theorem slice_take (b : Buffer) (i len m : Nat) (h : i + len ≤ m) :
    Buffer.slice (b.take m) i (i + len) = Buffer.slice b i (i + len) := by
  unfold Buffer.slice
  rw [List.drop_take, List.take_take]
  congr 1
  omega

theorem StakeStoreLayout_decode_eq (b : Buffer) (h : 35 ≤ b.length) :
    StakeStoreLayout.decode b 0
      = Except.ok ⟨b[0].val, Buffer.slice b 1 33, b[33].val + 256 * b[34].val,
          Buffer.slice b 35 67⟩ := by
  unfold StakeStoreLayout.decode UInt.decode Blob.decode
  simp only [u8Span, u16Span, PublicKeyLayout.span, Nat.zero_add, Nat.reduceAdd]
  rw [readUIntLE_one b 0 (by omega), readUIntLE_two b 33 (by omega)]
  rfl

theorem StakeListHeaderLayout_decode_eq (b : Buffer) (h : 5 ≤ b.length) :
    StakeListHeaderLayout.decode b 0
      = Except.ok ⟨b[0].val, b[1].val + 256 * b[2].val, b[3].val + 256 * b[4].val⟩ := by
  unfold StakeListHeaderLayout.decode UInt.decode
  simp only [u8Span, u16Span, Nat.zero_add, Nat.reduceAdd]
  rw [readUIntLE_one b 0 (by omega), readUIntLE_two b 1 (by omega),
    readUIntLE_two b 3 (by omega)]
  rfl

theorem StakeItemLayout_decode_eq (b : Buffer) (offset : Nat) :
    StakeItemLayout.decode b offset
      = Except.ok ⟨Buffer.slice b offset (offset + 32),
          Buffer.slice b (offset + 32) (offset + 32 + 32),
          Buffer.slice b (offset + 64) (offset + 64 + 32),
          Buffer.slice b (offset + 96) (offset + 96 + 8)⟩ := by
  rfl

theorem Sequence_decode_items (n : Nat) (b : Buffer) (offset : Nat) :
    Sequence.decode StakeItemLayout.decode StakeItemLayout.span n b offset
      = Except.ok ((List.range n).map (fun i =>
          (⟨Buffer.slice b (offset + 104 * i) (offset + 104 * i + 32),
            Buffer.slice b (offset + 104 * i + 32) (offset + 104 * i + 32 + 32),
            Buffer.slice b (offset + 104 * i + 64) (offset + 104 * i + 64 + 32),
            Buffer.slice b (offset + 104 * i + 96) (offset + 104 * i + 96 + 8)⟩ :
            StakeItem))) := by
  induction n generalizing offset with
  | zero => rfl
  | succ n ih =>
    unfold Sequence.decode
    rw [StakeItemLayout_decode_eq, ih]
    simp only [bind, Except.bind, pure, Except.pure, List.range_succ_eq_map, List.map_cons,
      List.map_map]
    congr 2
    apply List.map_congr_left
    intro i _
    simp only [Function.comp, StakeItemLayout.span, Structure.span, PublicKeyLayout.span,
      Uint64Layout.span, List.foldl]
    have e : offset + (0 + 32 + 32 + 32 + 8) + 104 * i = offset + 104 * (i + 1) := by omega
    rw [e]

theorem StakeListLayout_decode_eq (n : Nat) (b : Buffer) (h : 5 ≤ b.length) :
    StakeListLayout.decode n b 0
      = Except.ok ⟨⟨b[0].val, b[1].val + 256 * b[2].val, b[3].val + 256 * b[4].val⟩,
          (List.range n).map (fun i =>
          (⟨Buffer.slice b (5 + 104 * i) (5 + 104 * i + 32),
            Buffer.slice b (5 + 104 * i + 32) (5 + 104 * i + 32 + 32),
            Buffer.slice b (5 + 104 * i + 64) (5 + 104 * i + 64 + 32),
            Buffer.slice b (5 + 104 * i + 96) (5 + 104 * i + 96 + 8)⟩ : StakeItem))⟩ := by
  unfold StakeListLayout.decode
  rw [StakeListHeaderLayout_decode_eq b h]
  simp only [bind, Except.bind, Sequence_decode_items]
  rfl

theorem StakeStoreLayout_decode_take (b : Buffer) (h : 67 ≤ b.length) :
    StakeStoreLayout.decode (b.take 67) 0 = StakeStoreLayout.decode b 0 := by
  have hl : (b.take 67).length = 67 := by simp; omega
  rw [StakeStoreLayout_decode_eq b (by omega), StakeStoreLayout_decode_eq (b.take 67) (by omega)]
  have e1 := slice_take b 1 32 67 (by omega)
  have e2 := slice_take b 35 32 67 (by omega)
  simp only [Nat.reduceAdd] at e1 e2
  simp only [List.getElem_take, e1, e2]

theorem StakeListLayout_decode_take (n : Nat) (b : Buffer) (h : 5 + 104 * n ≤ b.length) :
    StakeListLayout.decode n (b.take (5 + 104 * n)) 0 = StakeListLayout.decode n b 0 := by
  have hl : (b.take (5 + 104 * n)).length = 5 + 104 * n := by simp; omega
  rw [StakeListLayout_decode_eq n b (by omega),
    StakeListLayout_decode_eq n (b.take (5 + 104 * n)) (by omega)]
  simp only [List.getElem_take]
  congr 2
  apply List.map_congr_left
  intro i hi
  have hi : i < n := List.mem_range.1 hi
  rw [slice_take b (5 + 104 * i) 32 _ (by omega), slice_take b (5 + 104 * i + 32) 32 _ (by omega),
    slice_take b (5 + 104 * i + 64) 32 _ (by omega), slice_take b (5 + 104 * i + 96) 8 _ (by omega)]

theorem beValue_foldl_lt (b : Buffer) : ∀ acc : Nat,
    b.foldl (fun acc x => acc * 256 + x.val) acc < (acc + 1) * 256 ^ b.length := by
  induction b with
  | nil => intro acc; simp
  | cons x xs ih =>
    intro acc
    simp only [List.foldl_cons, List.length_cons]
    have h1 := ih (acc * 256 + x.val)
    have h2 : (acc * 256 + x.val + 1) * 256 ^ xs.length ≤ (acc + 1) * 256 * 256 ^ xs.length :=
      Nat.mul_le_mul_right _ (by have := x.isLt; omega)
    calc _ < (acc * 256 + x.val + 1) * 256 ^ xs.length := h1
      _ ≤ (acc + 1) * 256 * 256 ^ xs.length := h2
      _ = (acc + 1) * 256 ^ (xs.length + 1) := by rw [pow_succ']; ring

theorem PublicKey_ofBuffer_ok (b : Buffer) (h : b.length = 32) :
    PublicKey.ofBuffer b = Except.ok ⟨beValue b⟩ := by
  have hlt : beValue b < 256 ^ 32 := by
    have := beValue_foldl_lt b 0
    rw [h] at this
    simpa [beValue] using this
  have hb : BN.byteLength (beValue b) ≤ 32 := (byteLength_le _ 32).2 hlt
  unfold PublicKey.ofBuffer
  rw [if_neg (by omega)]
  rfl

theorem loadAccount_ok (connection : Connection) (address programId : PublicKey)
    (info : AccountInfo) (hget : connection.getAccountInfo address = some info)
    (howner : info.owner = programId) :
    loadAccount connection address programId = Except.ok info.data := by
  unfold loadAccount
  rw [hget]
  simp [howner, pure, Except.pure]

theorem loadStakingStore_eq
    (findProgramAddress : List Buffer → PublicKey → Option (PublicKey × Nat))
    (connection : Connection) (storeKey programId : PublicKey) (info : AccountInfo)
    (hget : connection.getAccountInfo storeKey = some info) (howner : info.owner = programId)
    (hlen : 67 ≤ info.data.length) :
    StakeStore.loadStakingStore findProgramAddress connection storeKey programId
      = if info.data[0].val = 0 then Except.error JsError.invalidState
        else match findProgramAddress [storeKey.toBuffer] programId with
          | none => Except.error JsError.noProgramAddress
          | some (authorityKey, _) =>
            Except.ok (StakeStore.new connection programId storeKey TOKEN_PROGRAM_ID authorityKey
              ⟨beValue (Buffer.slice info.data 1 33)⟩) := by
  unfold StakeStore.loadStakingStore
  rw [loadAccount_ok connection storeKey programId info hget howner]
  simp only [bind, Except.bind, StakeStoreLayout_decode_eq info.data (by omega)]
  have h1 := slice_length info.data 1 32 (by omega)
  have h2 := slice_length info.data 35 32 (by omega)
  simp only [Nat.reduceAdd] at h1 h2
  split
  · rfl
  · cases findProgramAddress [storeKey.toBuffer] programId with
    | none => rfl
    | some p =>
      obtain ⟨authorityKey, nonce⟩ := p
      simp only [PublicKey_ofBuffer_ok _ h1, PublicKey_ofBuffer_ok _ h2]
      rfl

theorem slice_append (pre mid post : Buffer) (offset stop : Nat) (ho : offset = pre.length)
    (hs : stop = offset + mid.length) :
    Buffer.slice (pre ++ mid ++ post) offset stop = mid := by
  subst ho hs
  unfold Buffer.slice
  rw [List.append_assoc, List.drop_left, Nat.add_sub_cancel_left, List.take_left]

theorem write_append (pre mid post src : Buffer) (hm : mid.length = src.length) :
    Buffer.write (pre ++ mid ++ post) src pre.length = pre ++ src ++ post := by
  unfold Buffer.write
  have e : pre ++ mid ++ post = pre ++ (mid ++ post) := List.append_assoc pre mid post
  rw [e, List.take_left, List.drop_append, List.drop_left' hm]

theorem UInt_encodesAs (k v : Nat) (hv : v < 256 ^ k) :
    EncodesAs (UInt.encode k v) k (leBytes k v) := by
  refine ⟨leBytes_length k v, fun pre mid post hm => ?_⟩
  unfold UInt.encode Buffer.writeUIntLE
  rw [if_pos ⟨hv, by simp [hm]⟩]
  simp only [bind, Except.bind, pure, Except.pure]
  rw [write_append pre mid post _ (by rw [hm, leBytes_length])]

theorem Blob_encodesAs (len : Nat) (src : Buffer) (hs : src.length = len) :
    EncodesAs (Blob.encode len src) len src := by
  refine ⟨hs, fun pre mid post hm => ?_⟩
  unfold Blob.encode
  rw [if_neg (by simp [hs]), if_neg (by simp [hm])]
  simp only [pure, Except.pure]
  rw [write_append pre mid post _ (by rw [hm, hs])]

theorem encodeLoop_append (fields : List Field) (bytes : List Buffer)
    (hf : List.Forall₂ (fun fd bs => EncodesAs fd.encode fd.span bs) fields bytes) :
    ∀ (pre mid post : Buffer) (lastOffset lastWrote : Nat),
      mid.length = bytes.flatten.length →
      ∃ lo lw, Structure.encodeLoop fields (pre ++ mid ++ post) pre.length lastOffset lastWrote
          = Except.ok (pre ++ bytes.flatten ++ post, lo, lw) ∧
        (fields ≠ [] → lo + lw = pre.length + bytes.flatten.length) ∧
        (fields = [] → lo = lastOffset ∧ lw = lastWrote) := by
  induction hf with
  | nil =>
    intro pre mid post lastOffset lastWrote hm
    have : mid = [] := List.length_eq_zero.1 (by simpa using hm)
    subst this
    exact ⟨lastOffset, lastWrote, rfl, fun h => absurd rfl h, fun _ => ⟨rfl, rfl⟩⟩
  | @cons fd bs fds bss h _ ih =>
    intro pre mid post lastOffset lastWrote hm
    obtain ⟨hlen, henc⟩ := h
    simp only [List.flatten_cons, List.length_append] at hm
    have hm1 : (mid.take fd.span).length = fd.span := by simp; omega
    have hm2 : (mid.drop fd.span).length = bss.flatten.length := by
      rw [List.length_drop]; omega
    have hb : pre ++ mid ++ post = pre ++ mid.take fd.span ++ (mid.drop fd.span ++ post) := by
      rw [List.append_assoc pre (mid.take fd.span), ← List.append_assoc (mid.take fd.span),
        List.take_append_drop, List.append_assoc]
    obtain ⟨lo, lw, hloop, hne, hnil⟩ :=
      ih (pre ++ bs) (mid.drop fd.span) post pre.length fd.span hm2
    have hoff : (pre ++ bs).length = pre.length + fd.span := by simp [hlen]
    rw [hoff] at hloop
    refine ⟨lo, lw, ?_, ?_, fun h => by cases h⟩
    · unfold Structure.encodeLoop
      rw [hb, henc pre _ _ hm1]
      simp only [bind, Except.bind]
      rw [← List.append_assoc, hloop]
      simp [List.append_assoc]
    · intro _
      by_cases hfds : fds = []
      · obtain ⟨h1, h2⟩ := hnil hfds
        subst hfds
        cases ‹List.Forall₂ _ [] bss›
        simp [h1, h2, hlen]
      · have := hne hfds
        simp only [List.flatten_cons, List.length_append] at this ⊢
        omega

theorem Structure_encodesAs (fields : List Field) (bytes : List Buffer) (hne : fields ≠ [])
    (hf : List.Forall₂ (fun fd bs => EncodesAs fd.encode fd.span bs) fields bytes) :
    EncodesAs (Structure.encode fields) bytes.flatten.length bytes.flatten := by
  refine ⟨rfl, fun pre mid post hm => ?_⟩
  obtain ⟨lo, lw, hloop, hsum, _⟩ := encodeLoop_append fields bytes hf pre mid post 0 0 hm
  unfold Structure.encode
  rw [hloop]
  simp only [bind, Except.bind, pure, Except.pure]
  rw [hsum hne, Nat.add_sub_cancel_left]

theorem Sequence_foldl_append {α : Type}
    (elo : α → Buffer → Nat → Except JsError (Buffer × Nat)) (span : Nat)
    (bytesOf : α → Buffer) (offset : Nat) (src : List α)
    (h : ∀ v ∈ src, EncodesAs (elo v) span (bytesOf v)) :
    ∀ (pre mid post : Buffer) (acc : Nat), mid.length = src.length * span →
      pre.length = offset + acc →
      src.foldlM
        (fun (acc : Buffer × Nat) v => do
          let (b, wrote) ← elo v acc.1 (offset + acc.2)
          pure (b, acc.2 + wrote))
        (pre ++ mid ++ post, acc)
      = Except.ok (pre ++ (src.map bytesOf).flatten ++ post, acc + src.length * span) := by
  induction src with
  | nil =>
    intro pre mid post acc hm _
    have : mid = [] := List.length_eq_zero.1 (by simpa using hm)
    subst this
    simp only [List.foldlM_nil, pure, Except.pure, List.map_nil, List.flatten_nil,
      List.length_nil, Nat.zero_mul, Nat.add_zero]
  | cons v vs ih =>
    intro pre mid post acc hm hpre
    obtain ⟨hlen, henc⟩ := h v (List.mem_cons_self v vs)
    simp only [List.length_cons, Nat.add_mul, Nat.one_mul] at hm
    have hm1 : (mid.take span).length = span := by simp; omega
    have hm2 : (mid.drop span).length = vs.length * span := by simp; omega
    have hb : pre ++ mid ++ post = pre ++ mid.take span ++ (mid.drop span ++ post) := by
      rw [List.append_assoc pre (mid.take span), ← List.append_assoc (mid.take span),
        List.take_append_drop, List.append_assoc]
    have ih1 := ih (fun w hw => h w (List.mem_cons_of_mem v hw)) (pre ++ bytesOf v)
      (mid.drop span) post (acc + span) hm2 (by simp [hlen]; omega)
    rw [List.foldlM_cons]
    simp only [bind, Except.bind]
    rw [← hpre, hb, henc pre _ _ hm1]
    simp only [pure, Except.pure]
    rw [← List.append_assoc]
    simp only [bind, Except.bind, pure, Except.pure] at ih1
    rw [ih1]
    simp only [List.map_cons, List.flatten_cons, List.length_cons, List.append_assoc]
    congr 2
    rw [Nat.add_mul, Nat.one_mul]
    omega

theorem Sequence_encodesAs {α : Type}
    (elo : α → Buffer → Nat → Except JsError (Buffer × Nat)) (span : Nat)
    (bytesOf : α → Buffer) (src : List α)
    (h : ∀ v ∈ src, EncodesAs (elo v) span (bytesOf v)) :
    EncodesAs (Sequence.encode elo src) (src.length * span) (src.map bytesOf).flatten := by
  constructor
  · induction src with
    | nil => simp
    | cons v vs ih =>
      simp only [List.map_cons, List.flatten_cons, List.length_append, List.length_cons]
      rw [ih (fun w hw => h w (List.mem_cons_of_mem v hw)), (h v (List.mem_cons_self v vs)).1,
        Nat.add_mul, Nat.one_mul, Nat.add_comm]
  · intro pre mid post hm
    unfold Sequence.encode
    rw [Sequence_foldl_append elo span bytesOf pre.length src h pre mid post 0 hm rfl]
    simp

theorem UInt_decode_of_eq (k v : Nat) (b pre post : Buffer) (offset : Nat)
    (hb : b = pre ++ leBytes k v ++ post) (ho : offset = pre.length) (hv : v < 256 ^ k) :
    UInt.decode k b offset = Except.ok v := by
  subst hb ho
  unfold UInt.decode Buffer.readUIntLE
  rw [if_pos (by simp [leBytes_length]),
    slice_append pre (leBytes k v) post _ _ rfl (by rw [leBytes_length]), leValue_leBytes,
    Nat.mod_eq_of_lt hv]
  rfl

theorem Blob_decode_of_eq (len : Nat) (b pre mid post : Buffer) (offset : Nat)
    (hb : b = pre ++ mid ++ post) (ho : offset = pre.length) (hm : mid.length = len) :
    Blob.decode len b offset = mid := by
  subst hb ho
  unfold Blob.decode
  exact slice_append pre mid post _ _ rfl (by rw [hm])

theorem StakeStoreLayout_encodesAs (v : StakeStoreData) (hi : v.isInitialized < 256)
    (hm : v.manager.length = 32) (hc : v.stakedCount < 65536) (hs : v.stakeList.length = 32) :
    EncodesAs (StakeStoreLayout.encode v) 67
      (leBytes 1 v.isInitialized ++ (v.manager ++ (leBytes 2 v.stakedCount ++ v.stakeList)))
      := by
  have h := Structure_encodesAs
    [⟨u8Span, UInt.encode u8Span v.isInitialized⟩,
     ⟨PublicKeyLayout.span, Blob.encode PublicKeyLayout.span v.manager⟩,
     ⟨u16Span, UInt.encode u16Span v.stakedCount⟩,
     ⟨PublicKeyLayout.span, Blob.encode PublicKeyLayout.span v.stakeList⟩]
    [leBytes 1 v.isInitialized, v.manager, leBytes 2 v.stakedCount, v.stakeList]
    (by simp)
    (List.Forall₂.cons (UInt_encodesAs 1 _ (by simpa using hi))
      (List.Forall₂.cons (Blob_encodesAs 32 _ hm)
        (List.Forall₂.cons (UInt_encodesAs 2 _ (by simpa using hc))
          (List.Forall₂.cons (Blob_encodesAs 32 _ hs) List.Forall₂.nil))))
  have hl : ([leBytes 1 v.isInitialized, v.manager, leBytes 2 v.stakedCount,
      v.stakeList] : List Buffer).flatten.length = 67 := by
    simp [leBytes_length, hm, hs]
  rw [hl] at h
  simpa [StakeStoreLayout.encode] using h

theorem StakeStoreLayout_decode_of_eq (v : StakeStoreData) (hi : v.isInitialized < 256)
    (hm : v.manager.length = 32) (hc : v.stakedCount < 65536) (hs : v.stakeList.length = 32) :
    DecodesAs StakeStoreLayout.decode
      (leBytes 1 v.isInitialized ++ (v.manager ++ (leBytes 2 v.stakedCount ++ v.stakeList)))
      v := by
  intro pre post
  have h1 := UInt_decode_of_eq 1 v.isInitialized
    (pre ++ (leBytes 1 v.isInitialized ++ (v.manager ++ (leBytes 2 v.stakedCount
      ++ v.stakeList))) ++ post) pre
    (v.manager ++ (leBytes 2 v.stakedCount ++ v.stakeList) ++ post) pre.length
    (by simp) rfl (by simpa using hi)
  have h2 := Blob_decode_of_eq 32
    (pre ++ (leBytes 1 v.isInitialized ++ (v.manager ++ (leBytes 2 v.stakedCount
      ++ v.stakeList))) ++ post) (pre ++ leBytes 1 v.isInitialized) v.manager
    (leBytes 2 v.stakedCount ++ v.stakeList ++ post) (pre.length + 1)
    (by simp) (by simp [leBytes_length]) hm
  have h3 := UInt_decode_of_eq 2 v.stakedCount
    (pre ++ (leBytes 1 v.isInitialized ++ (v.manager ++ (leBytes 2 v.stakedCount
      ++ v.stakeList))) ++ post) (pre ++ leBytes 1 v.isInitialized ++ v.manager)
    (v.stakeList ++ post) (pre.length + 1 + 32)
    (by simp) (by simp [leBytes_length, hm]) (by simpa using hc)
  have h4 := Blob_decode_of_eq 32
    (pre ++ (leBytes 1 v.isInitialized ++ (v.manager ++ (leBytes 2 v.stakedCount
      ++ v.stakeList))) ++ post)
    (pre ++ leBytes 1 v.isInitialized ++ v.manager ++ leBytes 2 v.stakedCount) v.stakeList
    post (pre.length + 1 + 32 + 2)
    (by simp) (by simp [leBytes_length, hm]) hs
  unfold StakeStoreLayout.decode
  simp only [u8Span, u16Span, PublicKeyLayout.span]
  rw [h1, h2, h3, h4]
  rfl

theorem StakeListHeaderLayout_encodesAs (v : StakeListHeader) (hi : v.isInitialized < 256)
    (hm : v.maxItems < 65536) (hc : v.count < 65536) :
    EncodesAs (StakeListHeaderLayout.encode v) StakeListHeaderLayout.span
      (leBytes 1 v.isInitialized ++ (leBytes 2 v.maxItems ++ leBytes 2 v.count)) := by
  have h := Structure_encodesAs
    [⟨u8Span, UInt.encode u8Span v.isInitialized⟩,
     ⟨u16Span, UInt.encode u16Span v.maxItems⟩,
     ⟨u16Span, UInt.encode u16Span v.count⟩]
    [leBytes 1 v.isInitialized, leBytes 2 v.maxItems, leBytes 2 v.count]
    (by simp)
    (List.Forall₂.cons (UInt_encodesAs 1 _ (by simpa using hi))
      (List.Forall₂.cons (UInt_encodesAs 2 _ (by simpa using hm))
        (List.Forall₂.cons (UInt_encodesAs 2 _ (by simpa using hc)) List.Forall₂.nil)))
  have hl : ([leBytes 1 v.isInitialized, leBytes 2 v.maxItems, leBytes 2 v.count] :
      List Buffer).flatten.length = StakeListHeaderLayout.span := by
    simp [leBytes_length]; rfl
  rw [hl] at h
  simpa [StakeListHeaderLayout.encode] using h

theorem StakeListHeaderLayout_decode_of_eq (v : StakeListHeader) (hi : v.isInitialized < 256)
    (hm : v.maxItems < 65536) (hc : v.count < 65536) :
    DecodesAs StakeListHeaderLayout.decode
      (leBytes 1 v.isInitialized ++ (leBytes 2 v.maxItems ++ leBytes 2 v.count)) v := by
  intro pre post
  have h1 := UInt_decode_of_eq 1 v.isInitialized
    (pre ++ (leBytes 1 v.isInitialized ++ (leBytes 2 v.maxItems ++ leBytes 2 v.count)) ++ post)
    pre (leBytes 2 v.maxItems ++ leBytes 2 v.count ++ post) pre.length
    (by simp) rfl (by simpa using hi)
  have h2 := UInt_decode_of_eq 2 v.maxItems
    (pre ++ (leBytes 1 v.isInitialized ++ (leBytes 2 v.maxItems ++ leBytes 2 v.count)) ++ post)
    (pre ++ leBytes 1 v.isInitialized) (leBytes 2 v.count ++ post) (pre.length + 1)
    (by simp) (by simp [leBytes_length]) (by simpa using hm)
  have h3 := UInt_decode_of_eq 2 v.count
    (pre ++ (leBytes 1 v.isInitialized ++ (leBytes 2 v.maxItems ++ leBytes 2 v.count)) ++ post)
    (pre ++ leBytes 1 v.isInitialized ++ leBytes 2 v.maxItems) post (pre.length + 1 + 2)
    (by simp) (by simp [leBytes_length]) (by simpa using hc)
  unfold StakeListHeaderLayout.decode
  simp only [u8Span, u16Span]
  rw [h1, h2, h3]
  rfl

theorem StakeItemLayout_encodesAs (v : StakeItem) (ho : v.owner.length = 32)
    (ht : v.tokenMint.length = 32) (hh : v.holder.length = 32) (hs : v.stakeTime.length = 8) :
    EncodesAs (StakeItemLayout.encode v) StakeItemLayout.span
      (v.owner ++ (v.tokenMint ++ (v.holder ++ v.stakeTime))) := by
  have h := Structure_encodesAs
    [⟨PublicKeyLayout.span, Blob.encode PublicKeyLayout.span v.owner⟩,
     ⟨PublicKeyLayout.span, Blob.encode PublicKeyLayout.span v.tokenMint⟩,
     ⟨PublicKeyLayout.span, Blob.encode PublicKeyLayout.span v.holder⟩,
     ⟨Uint64Layout.span, Blob.encode Uint64Layout.span v.stakeTime⟩]
    [v.owner, v.tokenMint, v.holder, v.stakeTime]
    (by simp)
    (List.Forall₂.cons (Blob_encodesAs 32 _ ho)
      (List.Forall₂.cons (Blob_encodesAs 32 _ ht)
        (List.Forall₂.cons (Blob_encodesAs 32 _ hh)
          (List.Forall₂.cons (Blob_encodesAs 8 _ hs) List.Forall₂.nil))))
  have hl : ([v.owner, v.tokenMint, v.holder, v.stakeTime] :
      List Buffer).flatten.length = StakeItemLayout.span := by
    simp [ho, ht, hh, hs]; rfl
  rw [hl] at h
  simpa [StakeItemLayout.encode] using h

theorem StakeItemLayout_decode_of_eq (v : StakeItem) (ho : v.owner.length = 32)
    (ht : v.tokenMint.length = 32) (hh : v.holder.length = 32) (hs : v.stakeTime.length = 8) :
    DecodesAs StakeItemLayout.decode
      (v.owner ++ (v.tokenMint ++ (v.holder ++ v.stakeTime))) v := by
  intro pre post
  rw [StakeItemLayout_decode_eq]
  have e1 : pre ++ (v.owner ++ (v.tokenMint ++ (v.holder ++ v.stakeTime))) ++ post
      = pre ++ v.owner ++ (v.tokenMint ++ v.holder ++ v.stakeTime ++ post) := by simp
  have e2 : pre ++ (v.owner ++ (v.tokenMint ++ (v.holder ++ v.stakeTime))) ++ post
      = (pre ++ v.owner) ++ v.tokenMint ++ (v.holder ++ v.stakeTime ++ post) := by simp
  have e3 : pre ++ (v.owner ++ (v.tokenMint ++ (v.holder ++ v.stakeTime))) ++ post
      = (pre ++ v.owner ++ v.tokenMint) ++ v.holder ++ (v.stakeTime ++ post) := by simp
  have e4 : pre ++ (v.owner ++ (v.tokenMint ++ (v.holder ++ v.stakeTime))) ++ post
      = (pre ++ v.owner ++ v.tokenMint ++ v.holder) ++ v.stakeTime ++ post := by simp
  have s1 := slice_append pre v.owner (v.tokenMint ++ v.holder ++ v.stakeTime ++ post)
    pre.length (pre.length + 32) rfl (by rw [ho])
  have s2 := slice_append (pre ++ v.owner) v.tokenMint (v.holder ++ v.stakeTime ++ post)
    (pre.length + 32) (pre.length + 32 + 32) (by simp [ho]) (by rw [ht])
  have s3 := slice_append (pre ++ v.owner ++ v.tokenMint) v.holder (v.stakeTime ++ post)
    (pre.length + 64) (pre.length + 64 + 32) (by simp [ho, ht]) (by rw [hh])
  have s4 := slice_append (pre ++ v.owner ++ v.tokenMint ++ v.holder) v.stakeTime post
    (pre.length + 96) (pre.length + 96 + 8) (by simp [ho, ht, hh]) (by rw [hs])
  rw [← e1] at s1
  rw [← e2] at s2
  rw [← e3] at s3
  rw [← e4] at s4
  rw [s1, s2, s3, s4]

theorem Sequence_decodesAs {α : Type} (dec : Buffer → Nat → Except JsError α) (span : Nat)
    (bytesOf : α → Buffer) (src : List α)
    (h : ∀ v ∈ src, (bytesOf v).length = span ∧ DecodesAs dec (bytesOf v) v) :
    DecodesAs (Sequence.decode dec span src.length) (src.map bytesOf).flatten src := by
  induction src with
  | nil => intro pre post; rfl
  | cons v vs ih =>
    intro pre post
    obtain ⟨hlen, hdec⟩ := h v (List.mem_cons_self v vs)
    have ih1 := ih (fun w hw => h w (List.mem_cons_of_mem v hw)) (pre ++ bytesOf v) post
    have e1 : pre ++ (List.map bytesOf (v :: vs)).flatten ++ post
        = pre ++ bytesOf v ++ ((vs.map bytesOf).flatten ++ post) := by simp
    have e2 : pre ++ (List.map bytesOf (v :: vs)).flatten ++ post
        = pre ++ bytesOf v ++ (vs.map bytesOf).flatten ++ post := by simp
    rw [← e2, List.length_append, hlen] at ih1
    simp only [List.length_cons]
    unfold Sequence.decode
    rw [ih1]
    rw [e1, hdec pre _]
    rfl

theorem StakeListLayout_encodesAs (n : Nat) (v : StakeListData)
    (hi : v.header.isInitialized < 256) (hm : v.header.maxItems < 65536)
    (hc : v.header.count < 65536) (hn : v.items.length = n)
    (hitems : ∀ x ∈ v.items, x.owner.length = 32 ∧ x.tokenMint.length = 32 ∧
      x.holder.length = 32 ∧ x.stakeTime.length = 8) :
    EncodesAs (StakeListLayout.encode n v) (StakeListLayout.span n)
      ((leBytes 1 v.header.isInitialized ++ (leBytes 2 v.header.maxItems
          ++ leBytes 2 v.header.count))
        ++ (v.items.map StakeItem.bytes).flatten)
      := by
  have hseq := Sequence_encodesAs StakeItemLayout.encode StakeItemLayout.span
    StakeItem.bytes v.items
    (fun x hx => StakeItemLayout_encodesAs x (hitems x hx).1 (hitems x hx).2.1
      (hitems x hx).2.2.1 (hitems x hx).2.2.2)
  rw [hn] at hseq
  have h := Structure_encodesAs
    [⟨StakeListHeaderLayout.span, StakeListHeaderLayout.encode v.header⟩,
     ⟨Sequence.span StakeItemLayout.span n,
      Sequence.encode StakeItemLayout.encode v.items⟩]
    [leBytes 1 v.header.isInitialized ++ (leBytes 2 v.header.maxItems
        ++ leBytes 2 v.header.count),
     (v.items.map StakeItem.bytes).flatten]
    (by simp)
    (List.Forall₂.cons (StakeListHeaderLayout_encodesAs v.header hi hm hc)
      (List.Forall₂.cons hseq List.Forall₂.nil))
  have hl : ([leBytes 1 v.header.isInitialized ++ (leBytes 2 v.header.maxItems
        ++ leBytes 2 v.header.count),
      (v.items.map StakeItem.bytes).flatten] :
      List Buffer).flatten.length = StakeListLayout.span n := by
    have h1 := (StakeListHeaderLayout_encodesAs v.header hi hm hc).1
    have h2 := hseq.1
    simp only [List.flatten_cons, List.flatten_nil, List.append_nil, List.length_append] at h1 ⊢
    rw [h2]
    simp only [StakeListLayout.span, Structure.span, Sequence.span, List.foldl]
    omega
  rw [hl] at h
  simpa [StakeListLayout.encode] using h

theorem StakeListLayout_decode_of_eq (n : Nat) (v : StakeListData)
    (hi : v.header.isInitialized < 256) (hm : v.header.maxItems < 65536)
    (hc : v.header.count < 65536) (hn : v.items.length = n)
    (hitems : ∀ x ∈ v.items, x.owner.length = 32 ∧ x.tokenMint.length = 32 ∧
      x.holder.length = 32 ∧ x.stakeTime.length = 8) :
    DecodesAs (StakeListLayout.decode n)
      ((leBytes 1 v.header.isInitialized ++ (leBytes 2 v.header.maxItems
          ++ leBytes 2 v.header.count))
        ++ (v.items.map StakeItem.bytes).flatten)
      v := by
  intro pre post
  have hhead := StakeListHeaderLayout_decode_of_eq v.header hi hm hc pre
    ((v.items.map StakeItem.bytes).flatten
      ++ post)
  have hseq := Sequence_decodesAs StakeItemLayout.decode StakeItemLayout.span
    StakeItem.bytes v.items
    (fun x hx => ⟨(StakeItemLayout_encodesAs x (hitems x hx).1 (hitems x hx).2.1
        (hitems x hx).2.2.1 (hitems x hx).2.2.2).1,
      StakeItemLayout_decode_of_eq x (hitems x hx).1 (hitems x hx).2.1
        (hitems x hx).2.2.1 (hitems x hx).2.2.2⟩)
    (pre ++ (leBytes 1 v.header.isInitialized ++ (leBytes 2 v.header.maxItems
      ++ leBytes 2 v.header.count))) post
  rw [hn] at hseq
  have hoff : (pre ++ (leBytes 1 v.header.isInitialized ++ (leBytes 2 v.header.maxItems
      ++ leBytes 2 v.header.count))).length = pre.length + StakeListHeaderLayout.span := by
    simp [leBytes_length]; rfl
  rw [hoff] at hseq
  unfold StakeListLayout.decode
  simp only [List.append_assoc] at hhead hseq ⊢
  rw [hhead]
  simp only [bind, Except.bind]
  rw [hseq]
  rfl

theorem roundtrip_of {α : Type} (enc : Buffer → Nat → Except JsError (Buffer × Nat))
    (dec : Buffer → Nat → Except JsError α) (span : Nat) (bytes : Buffer) (v : α)
    (he : EncodesAs enc span bytes) (hd : DecodesAs dec bytes v) :
    ∃ b : Buffer, enc (Buffer.alloc span) 0 = Except.ok (b, span) ∧ b.length = span ∧
      dec b 0 = Except.ok v := by
  have h1 := he.2 [] (Buffer.alloc span) [] (by simp [Buffer.alloc])
  have h2 := hd [] []
  simp only [List.nil_append, List.append_nil, List.length_nil] at h1 h2
  exact ⟨bytes, h1, he.1, h2⟩

/-- C5: `StakeStoreLayout.span` is 67 and `StakeListLayout(n).span` is 5 + 104 * n for
every n (a header of 1 + 2 + 2 bytes and n items of 32 + 32 + 32 + 8 bytes); for
`MAX_STAKE_COUNT` = 65535 this is 6815645, and these are the sizes the store asks the
rent exemption for: 67 bytes for the store account, 6815645 for the list account. -/
theorem layout_spans :
    StakeStoreLayout.span = 67 ∧
    StakeListHeaderLayout.span = 1 + 2 + 2 ∧ StakeItemLayout.span = 32 + 32 + 32 + 8 ∧
    (∀ n : Nat, StakeListLayout.span n = 5 + 104 * n) ∧
    MAX_STAKE_COUNT = 65535 ∧ StakeListLayout.span MAX_STAKE_COUNT = 6815645 ∧
    (∀ c : Connection, StakeStore.getMinBlanaceRentForExemptStakingStore c
      = c.getMinimumBalanceForRentExemption 67) ∧
    (∀ c : Connection, StakeStore.getMinBlanaceRentForExemptStakingList c
      = c.getMinimumBalanceForRentExemption 6815645) := by
  have hn : ∀ n : Nat, StakeListLayout.span n = 5 + 104 * n := by
    intro n
    simp only [StakeListLayout.span, Structure.span, StakeListHeaderLayout.span,
      Sequence.span, StakeItemLayout.span, u8Span, u16Span, PublicKeyLayout.span,
      Uint64Layout.span, List.foldl]
    omega
  refine ⟨rfl, rfl, rfl, hn, rfl, ?_, fun _ => rfl, fun c => ?_⟩
  · rw [hn]; rfl
  · unfold StakeStore.getMinBlanaceRentForExemptStakingList
    rw [hn]; rfl

/-- C6: decoding what was encoded gives the value back. For every valid store record
(isInitialized a byte, manager and stakeList of 32 bytes, stakedCount below 2^16),
for every valid item (three keys of 32 bytes, a stakeTime of 8 bytes) and, for every
capacity n, for every list record with a valid header and exactly n valid items,
`encode` into a fresh buffer of the layout span succeeds, fills the span, and
`decode` of the result is the value. -/
theorem layout_roundtrip :
    (∀ v : StakeStoreData, v.isInitialized < 256 → v.manager.length = 32 →
      v.stakedCount < 65536 → v.stakeList.length = 32 →
      ∃ b : Buffer,
        StakeStoreLayout.encode v (Buffer.alloc StakeStoreLayout.span) 0
          = Except.ok (b, StakeStoreLayout.span) ∧
        b.length = StakeStoreLayout.span ∧ StakeStoreLayout.decode b 0 = Except.ok v) ∧
    (∀ v : StakeItem, v.owner.length = 32 → v.tokenMint.length = 32 →
      v.holder.length = 32 → v.stakeTime.length = 8 →
      ∃ b : Buffer,
        StakeItemLayout.encode v (Buffer.alloc StakeItemLayout.span) 0
          = Except.ok (b, StakeItemLayout.span) ∧
        b.length = StakeItemLayout.span ∧ StakeItemLayout.decode b 0 = Except.ok v) ∧
    (∀ (n : Nat) (v : StakeListData), v.header.isInitialized < 256 →
      v.header.maxItems < 65536 → v.header.count < 65536 → v.items.length = n →
      (∀ x ∈ v.items, x.owner.length = 32 ∧ x.tokenMint.length = 32 ∧
        x.holder.length = 32 ∧ x.stakeTime.length = 8) →
      ∃ b : Buffer,
        StakeListLayout.encode n v (Buffer.alloc (StakeListLayout.span n)) 0
          = Except.ok (b, StakeListLayout.span n) ∧
        b.length = StakeListLayout.span n ∧ StakeListLayout.decode n b 0 = Except.ok v) := by
  refine ⟨?_, ?_, ?_⟩
  · intro v hi hm hc hs
    exact roundtrip_of _ _ _ _ v (StakeStoreLayout_encodesAs v hi hm hc hs)
      (StakeStoreLayout_decode_of_eq v hi hm hc hs)
  · intro v ho ht hh hs
    exact roundtrip_of _ _ _ _ v (StakeItemLayout_encodesAs v ho ht hh hs)
      (StakeItemLayout_decode_of_eq v ho ht hh hs)
  · intro n v hi hm hc hn hitems
    exact roundtrip_of _ _ _ _ v (StakeListLayout_encodesAs n v hi hm hc hn hitems)
      (StakeListLayout_decode_of_eq n v hi hm hc hn hitems)

/-- C6, instances: an initialized store record, an item, the empty list record for
capacity 0 and a list record with one item for capacity 1. -/
theorem layout_roundtrip_witness :
    (∃ b : Buffer,
      StakeStoreLayout.encode ⟨1, Buffer.alloc 32, 2, Buffer.alloc 32⟩
          (Buffer.alloc StakeStoreLayout.span) 0 = Except.ok (b, StakeStoreLayout.span) ∧
      b.length = StakeStoreLayout.span ∧
      StakeStoreLayout.decode b 0 = Except.ok ⟨1, Buffer.alloc 32, 2, Buffer.alloc 32⟩) ∧
    (∃ b : Buffer,
      StakeItemLayout.encode ⟨Buffer.alloc 32, Buffer.alloc 32, Buffer.alloc 32, Buffer.alloc 8⟩
          (Buffer.alloc StakeItemLayout.span) 0 = Except.ok (b, StakeItemLayout.span) ∧
      b.length = StakeItemLayout.span ∧
      StakeItemLayout.decode b 0
        = Except.ok ⟨Buffer.alloc 32, Buffer.alloc 32, Buffer.alloc 32, Buffer.alloc 8⟩) ∧
    (∃ b : Buffer,
      StakeListLayout.encode 0 ⟨⟨1, 65535, 0⟩, []⟩ (Buffer.alloc (StakeListLayout.span 0)) 0
        = Except.ok (b, StakeListLayout.span 0) ∧
      b.length = StakeListLayout.span 0 ∧
      StakeListLayout.decode 0 b 0 = Except.ok ⟨⟨1, 65535, 0⟩, []⟩) ∧
    (∃ b : Buffer,
      StakeListLayout.encode 1
          ⟨⟨1, 65535, 1⟩, [⟨Buffer.alloc 32, Buffer.alloc 32, Buffer.alloc 32, Buffer.alloc 8⟩]⟩
          (Buffer.alloc (StakeListLayout.span 1)) 0 = Except.ok (b, StakeListLayout.span 1) ∧
      b.length = StakeListLayout.span 1 ∧
      StakeListLayout.decode 1 b 0 = Except.ok
        ⟨⟨1, 65535, 1⟩, [⟨Buffer.alloc 32, Buffer.alloc 32, Buffer.alloc 32, Buffer.alloc 8⟩]⟩) :=
  ⟨layout_roundtrip.1 ⟨1, Buffer.alloc 32, 2, Buffer.alloc 32⟩
      (by decide) (by decide) (by decide) (by decide),
   layout_roundtrip.2.1 ⟨Buffer.alloc 32, Buffer.alloc 32, Buffer.alloc 32, Buffer.alloc 8⟩
      (by decide) (by decide) (by decide) (by decide),
   layout_roundtrip.2.2 0 ⟨⟨1, 65535, 0⟩, []⟩ (by decide) (by decide) (by decide) (by decide)
      (by decide),
   layout_roundtrip.2.2 1
      ⟨⟨1, 65535, 1⟩, [⟨Buffer.alloc 32, Buffer.alloc 32, Buffer.alloc 32, Buffer.alloc 8⟩]⟩
      (by decide) (by decide) (by decide) (by decide) (by decide)⟩

/-- C7: for every buffer of at least 67 bytes `StakeStoreLayout.decode` returns
isInitialized = b[0], manager = the 32 bytes b[1..33), stakedCount = b[33] + 256 * b[34]
and stakeList = the 32 bytes b[35..67); a buffer with the same first 67 bytes decodes to
the same record. -/
theorem StakeStoreLayout_decode_spec (b : Buffer) (h : 67 ≤ b.length) :
    StakeStoreLayout.decode b 0
      = Except.ok ⟨b[0].val, (b.drop 1).take 32, b[33].val + 256 * b[34].val,
          (b.drop 35).take 32⟩ ∧
    ((b.drop 1).take 32).length = 32 ∧ ((b.drop 35).take 32).length = 32 ∧
    (∀ b' : Buffer, 67 ≤ b'.length → b'.take 67 = b.take 67 →
      StakeStoreLayout.decode b' 0 = StakeStoreLayout.decode b 0) := by
  refine ⟨StakeStoreLayout_decode_eq b (by omega), ?_, ?_, ?_⟩
  · simp; omega
  · simp; omega
  · intro b' h' e
    rw [← StakeStoreLayout_decode_take b' h', e, StakeStoreLayout_decode_take b h]

/-- C7, an instance: a zero-filled buffer of 70 bytes. -/
theorem StakeStoreLayout_decode_spec_witness :
    StakeStoreLayout.decode (Buffer.alloc 70) 0
      = Except.ok ⟨0, Buffer.alloc 32, 0, Buffer.alloc 32⟩ :=
  (StakeStoreLayout_decode_spec (Buffer.alloc 70) (by decide)).1

/-- C8 (as amended): for every list buffer of at least 5 bytes `StakeListLayout(n).decode`
succeeds, returns header.count = b[3] + 256 * b[4] and an items sequence of length
exactly n, the count the layout was built with, whatever header.count and header.maxItems
are; the items have length header.count exactly when n equals header.count. -/
theorem StakeListLayout_decode_items_length (n : Nat) (b : Buffer) (h : 5 ≤ b.length) :
    ∃ v : StakeListData, StakeListLayout.decode n b 0 = Except.ok v ∧
      v.header.maxItems = b[1].val + 256 * b[2].val ∧
      v.header.count = b[3].val + 256 * b[4].val ∧
      v.items.length = n ∧
      (v.items.length = v.header.count ↔ n = b[3].val + 256 * b[4].val) := by
  refine ⟨_, StakeListLayout_decode_eq n b h, rfl, rfl, ?_, ?_⟩
  · simp
  · simp

/-- C8, an instance: a 5-byte header with count 3, decoded with the layout for 3 items. -/
theorem StakeListLayout_decode_items_length_witness :
    ∃ v : StakeListData, StakeListLayout.decode 3 [1, 255, 255, 3, 0] 0 = Except.ok v ∧
      v.header.count = 3 ∧ v.items.length = 3 := by
  obtain ⟨v, h1, _, h3, h4, _⟩ :=
    StakeListLayout_decode_items_length 3 [1, 255, 255, 3, 0] (by decide)
  exact ⟨v, h1, h3, h4⟩

/-- C8 as stated fails: a list buffer allocated for 4 items whose header has maxItems = 4
and count = 3, decoded with `StakeListLayout(4)`, exposes 4 items, not 3. -/
theorem StakeListLayout_decode_count_three :
    ∃ v : StakeListData,
      StakeListLayout.decode 4 ([1, 4, 0, 3, 0] ++ Buffer.alloc (104 * 4)) 0 = Except.ok v ∧
      v.header.maxItems = 4 ∧ v.header.count = 3 ∧ v.items.length = 4 := by
  refine ⟨_, StakeListLayout_decode_eq 4 _ (by simp), rfl, rfl, ?_⟩
  simp

/-- C9: for every n and every buffer of at least 5 + 104 * n bytes
`StakeListLayout(n).decode` returns header.isInitialized = b[0], header.maxItems =
b[1] + 256 * b[2], header.count = b[3] + 256 * b[4] and exactly n items in buffer order:
item i has owner = the 32 bytes from 5 + 104 * i, then tokenMint and holder of 32 bytes
each and stakeTime, the last 8 bytes of the slot; a buffer with the same first
5 + 104 * n bytes decodes to the same record. -/
theorem StakeListLayout_decode_spec (n : Nat) (b : Buffer) (h : 5 + 104 * n ≤ b.length) :
    ∃ items : List StakeItem,
      StakeListLayout.decode n b 0
        = Except.ok ⟨⟨b[0].val, b[1].val + 256 * b[2].val, b[3].val + 256 * b[4].val⟩,
            items⟩ ∧
      items.length = n ∧
      (∀ i : Nat, i < n → items[i]? = some
        ⟨(b.drop (5 + 104 * i)).take 32, (b.drop (5 + 104 * i + 32)).take 32,
         (b.drop (5 + 104 * i + 64)).take 32, (b.drop (5 + 104 * i + 96)).take 8⟩) ∧
      (∀ x ∈ items, x.owner.length = 32 ∧ x.tokenMint.length = 32 ∧ x.holder.length = 32 ∧
        x.stakeTime.length = 8) ∧
      (∀ b' : Buffer, 5 + 104 * n ≤ b'.length → b'.take (5 + 104 * n) = b.take (5 + 104 * n) →
        StakeListLayout.decode n b' 0 = StakeListLayout.decode n b 0) := by
  refine ⟨_, StakeListLayout_decode_eq n b (by omega), by simp, ?_, ?_, ?_⟩
  · intro i hi
    simp [Buffer.slice, hi]
  · intro x hx
    obtain ⟨i, hi, rfl⟩ := List.mem_map.1 hx
    have hi : i < n := List.mem_range.1 hi
    refine ⟨slice_length b _ 32 (by omega), slice_length b _ 32 (by omega),
      slice_length b _ 32 (by omega), slice_length b _ 8 (by omega)⟩
  · intro b' h' e
    rw [← StakeListLayout_decode_take n b' h', e, StakeListLayout_decode_take n b h]

/-- C9, an instance: a buffer of 120 bytes decoded with the layout for one item. -/
theorem StakeListLayout_decode_spec_witness :
    ∃ items : List StakeItem,
      StakeListLayout.decode 1 ([1, 4, 0, 1, 0] ++ Buffer.alloc 115) 0
        = Except.ok ⟨⟨1, 4, 1⟩, items⟩ ∧ items.length = 1 := by
  obtain ⟨items, h1, h2, _⟩ :=
    StakeListLayout_decode_spec 1 ([1, 4, 0, 1, 0] ++ Buffer.alloc 115) (by decide)
  exact ⟨items, h1, h2⟩

/-- C10 (as amended): for every fetched account that is owned by the expected program and
has at least 67 bytes of data, `loadStakingStore` fails with "Invalid staking store state"
exactly when byte 0, the decoded isInitialized, is 0; for byte 0 = 1, and also for
2..255, it does not raise that error, and returns a store whenever the program address
is found. -/
theorem loadStakingStore_invalidState_iff
    (findProgramAddress : List Buffer → PublicKey → Option (PublicKey × Nat))
    (connection : Connection) (storeKey programId : PublicKey) (info : AccountInfo)
    (hget : connection.getAccountInfo storeKey = some info) (howner : info.owner = programId)
    (hlen : 67 ≤ info.data.length) :
    (StakeStore.loadStakingStore findProgramAddress connection storeKey programId
        = Except.error JsError.invalidState ↔ info.data[0].val = 0) ∧
    (info.data[0].val ≠ 0 → ∀ p, findProgramAddress [storeKey.toBuffer] programId = some p →
      ∃ store, StakeStore.loadStakingStore findProgramAddress connection storeKey programId
        = Except.ok store) := by
  rw [loadStakingStore_eq findProgramAddress connection storeKey programId info hget howner hlen]
  constructor
  · constructor
    · intro hl
      by_contra h0
      rw [if_neg h0] at hl
      cases hf : findProgramAddress [storeKey.toBuffer] programId with
      | none => rw [hf] at hl; cases hl
      | some p => rw [hf] at hl; cases hl
    · intro h0
      rw [if_pos h0]
  · intro h0 p hp
    rw [if_neg h0, hp]
    exact ⟨_, rfl⟩

/-- C10, instances: a 67-byte record with byte 0 = 0 is rejected with the invalid-state
error, and one with byte 0 = 1 is not. -/
theorem loadStakingStore_invalidState_iff_witness :
    StakeStore.loadStakingStore (fun _ _ => some (⟨99⟩, 255))
        ⟨fun _ => some ⟨⟨5⟩, Buffer.alloc 67⟩, fun n => n⟩ ⟨3⟩ ⟨5⟩
      = Except.error JsError.invalidState ∧
    StakeStore.loadStakingStore (fun _ _ => some (⟨99⟩, 255))
        ⟨fun _ => some ⟨⟨5⟩, 1 :: Buffer.alloc 66⟩, fun n => n⟩ ⟨3⟩ ⟨5⟩
      ≠ Except.error JsError.invalidState :=
  ⟨(loadStakingStore_invalidState_iff (fun _ _ => some (⟨99⟩, 255))
      ⟨fun _ => some ⟨⟨5⟩, Buffer.alloc 67⟩, fun n => n⟩ ⟨3⟩ ⟨5⟩ ⟨⟨5⟩, Buffer.alloc 67⟩
      rfl rfl (by decide)).1.2 (by decide),
   fun e => absurd ((loadStakingStore_invalidState_iff (fun _ _ => some (⟨99⟩, 255))
      ⟨fun _ => some ⟨⟨5⟩, 1 :: Buffer.alloc 66⟩, fun n => n⟩ ⟨3⟩ ⟨5⟩
      ⟨⟨5⟩, 1 :: Buffer.alloc 66⟩ rfl rfl (by decide)).1.1 e) (by decide)⟩

/-- C10 as stated fails: a 67-byte record owned by the expected program whose byte 0 is 2
is loaded without the invalid-state error; a store is returned. -/
theorem loadStakingStore_byte_two :
    StakeStore.loadStakingStore (fun _ _ => some (⟨99⟩, 255))
        ⟨fun _ => some ⟨⟨5⟩, 2 :: Buffer.alloc 66⟩, fun n => n⟩ ⟨3⟩ ⟨5⟩
      = Except.ok ⟨⟨5⟩, ⟨99⟩, ⟨3⟩, TOKEN_PROGRAM_ID, ⟨0⟩⟩ := by
  rfl

/-! ## Loading an account: owner check, short buffers, the keys of the loaded store -/

theorem loadAccount_owner_mismatch (connection : Connection) (address programId : PublicKey)
    (info : AccountInfo) (hget : connection.getAccountInfo address = some info)
    (howner : info.owner ≠ programId) :
    loadAccount connection address programId
      = Except.error (JsError.invalidOwner programId info.owner) := by
  unfold loadAccount
  rw [hget]
  simp only [howner, ne_eq, not_false_eq_true, if_true]
  rfl

theorem loadStakingStore_of_loadAccount_error
    (findProgramAddress : List Buffer → PublicKey → Option (PublicKey × Nat))
    (connection : Connection) (storeKey programId : PublicKey) (e : JsError)
    (h : loadAccount connection storeKey programId = Except.error e) :
    StakeStore.loadStakingStore findProgramAddress connection storeKey programId
      = Except.error e := by
  unfold StakeStore.loadStakingStore
  rw [h]
  rfl

/-- C11: for every fetched account whose owner is not the expected program id,
`loadAccount` fails with the owner-mismatch error, and so does `loadStakingStore`,
whatever the data bytes of the account are: the error names the expected and the found
owner only, and two accounts with the same owner and any two data buffers give the
same result. -/
theorem loadAccount_invalidOwner
    (findProgramAddress : List Buffer → PublicKey → Option (PublicKey × Nat))
    (connection : Connection) (address programId owner : PublicKey) (data : Buffer)
    (hget : connection.getAccountInfo address = some ⟨owner, data⟩)
    (howner : owner ≠ programId) :
    loadAccount connection address programId
      = Except.error (JsError.invalidOwner programId owner) ∧
    StakeStore.loadStakingStore findProgramAddress connection address programId
      = Except.error (JsError.invalidOwner programId owner) ∧
    (∀ (connection' : Connection) (data' : Buffer),
      connection'.getAccountInfo address = some ⟨owner, data'⟩ →
      loadAccount connection' address programId = loadAccount connection address programId ∧
      StakeStore.loadStakingStore findProgramAddress connection' address programId
        = StakeStore.loadStakingStore findProgramAddress connection address programId) := by
  have h1 := loadAccount_owner_mismatch connection address programId ⟨owner, data⟩ hget howner
  have h2 := loadStakingStore_of_loadAccount_error findProgramAddress connection address
    programId _ h1
  refine ⟨h1, h2, fun connection' data' hget' => ?_⟩
  have h3 := loadAccount_owner_mismatch connection' address programId ⟨owner, data'⟩ hget'
    howner
  have h4 := loadStakingStore_of_loadAccount_error findProgramAddress connection' address
    programId _ h3
  exact ⟨h3.trans h1.symm, h4.trans h2.symm⟩

/-- C11, instances: an account owned by another program is rejected with the
owner-mismatch error when its data is empty and when it is a well-formed initialized
record. -/
theorem loadAccount_invalidOwner_witness :
    StakeStore.loadStakingStore (fun _ _ => some (⟨99⟩, 255))
        ⟨fun _ => some ⟨⟨6⟩, []⟩, fun n => n⟩ ⟨3⟩ ⟨5⟩
      = Except.error (JsError.invalidOwner ⟨5⟩ ⟨6⟩) ∧
    StakeStore.loadStakingStore (fun _ _ => some (⟨99⟩, 255))
        ⟨fun _ => some ⟨⟨6⟩, 1 :: Buffer.alloc 66⟩, fun n => n⟩ ⟨3⟩ ⟨5⟩
      = Except.error (JsError.invalidOwner ⟨5⟩ ⟨6⟩) :=
  ⟨(loadAccount_invalidOwner (fun _ _ => some (⟨99⟩, 255))
      ⟨fun _ => some ⟨⟨6⟩, []⟩, fun n => n⟩ ⟨3⟩ ⟨5⟩ ⟨6⟩ [] rfl (by decide)).2.1,
   (loadAccount_invalidOwner (fun _ _ => some (⟨99⟩, 255))
      ⟨fun _ => some ⟨⟨6⟩, 1 :: Buffer.alloc 66⟩, fun n => n⟩ ⟨3⟩ ⟨5⟩ ⟨6⟩
      (1 :: Buffer.alloc 66) rfl (by decide)).2.1⟩

theorem readUIntLE_short (b : Buffer) (i k : Nat) (h : b.length < i + k) :
    Buffer.readUIntLE b i k = Except.error JsError.rangeError := by
  unfold Buffer.readUIntLE
  rw [if_neg (by omega)]
  rfl

theorem readUIntLE_cases (b : Buffer) (i k : Nat) :
    Buffer.readUIntLE b i k = Except.error JsError.rangeError ∨
    ∃ v, Buffer.readUIntLE b i k = Except.ok v := by
  unfold Buffer.readUIntLE
  split
  · exact Or.inr ⟨_, rfl⟩
  · exact Or.inl rfl

theorem slice_length_min (b : Buffer) (i len : Nat) :
    (Buffer.slice b i (i + len)).length = min len (b.length - i) := by
  unfold Buffer.slice
  simp

theorem StakeStoreLayout_decode_short (b : Buffer) (h : b.length < 35) :
    StakeStoreLayout.decode b 0 = Except.error JsError.rangeError := by
  unfold StakeStoreLayout.decode UInt.decode
  simp only [u8Span, u16Span, PublicKeyLayout.span, Nat.zero_add, Nat.reduceAdd]
  rcases readUIntLE_cases b 0 1 with h1 | ⟨v, h1⟩
  · rw [h1]; rfl
  · rw [h1, readUIntLE_short b 33 2 (by omega)]; rfl

theorem StakeListHeaderLayout_decode_short (b : Buffer) (h : b.length < 5) :
    StakeListHeaderLayout.decode b 0 = Except.error JsError.rangeError := by
  unfold StakeListHeaderLayout.decode UInt.decode
  simp only [u8Span, u16Span, Nat.zero_add, Nat.reduceAdd]
  rcases readUIntLE_cases b 0 1 with h1 | ⟨v, h1⟩
  · rw [h1]; rfl
  · rcases readUIntLE_cases b 1 2 with h2 | ⟨w, h2⟩
    · rw [h1, h2]; rfl
    · rw [h1, h2, readUIntLE_short b 3 2 (by omega)]; rfl

theorem StakeListLayout_decode_short (n : Nat) (b : Buffer) (h : b.length < 5) :
    StakeListLayout.decode n b 0 = Except.error JsError.rangeError := by
  unfold StakeListLayout.decode
  rw [StakeListHeaderLayout_decode_short b h]
  rfl

/-- C12 (as amended): record decoding fails exactly when the buffer ends before the last
integer field: `StakeStoreLayout.decode` fails, with a RangeError, for every buffer
shorter than 35 bytes and `StakeListLayout(n).decode` for every buffer shorter than
5 bytes. For every longer buffer decode returns a record: the integer fields are read
as for a full buffer, and a public-key or 8-byte field is `b.slice(offset, offset + span)`,
the bytes of its range that the buffer has, in buffer order: 32 or 8 of them when the
buffer reaches the end of the field, fewer or none when it ends before. -/
theorem decode_short_buffer :
    (∀ b : Buffer, b.length < 35 →
      StakeStoreLayout.decode b 0 = Except.error JsError.rangeError) ∧
    (∀ (b : Buffer) (h : 35 ≤ b.length),
      StakeStoreLayout.decode b 0
        = Except.ok ⟨b[0].val, (b.drop 1).take 32, b[33].val + 256 * b[34].val,
            (b.drop 35).take 32⟩ ∧
      ((b.drop 1).take 32).length = 32 ∧
      ((b.drop 35).take 32).length = min 32 (b.length - 35)) ∧
    (∀ (n : Nat) (b : Buffer), b.length < 5 →
      StakeListLayout.decode n b 0 = Except.error JsError.rangeError) ∧
    (∀ (n : Nat) (b : Buffer) (h : 5 ≤ b.length),
      ∃ items : List StakeItem,
        StakeListLayout.decode n b 0
          = Except.ok ⟨⟨b[0].val, b[1].val + 256 * b[2].val, b[3].val + 256 * b[4].val⟩,
              items⟩ ∧
        items.length = n ∧
        ∀ i : Nat, i < n →
          items[i]? = some
            ⟨(b.drop (5 + 104 * i)).take 32, (b.drop (5 + 104 * i + 32)).take 32,
             (b.drop (5 + 104 * i + 64)).take 32, (b.drop (5 + 104 * i + 96)).take 8⟩ ∧
          ((b.drop (5 + 104 * i)).take 32).length = min 32 (b.length - (5 + 104 * i)) ∧
          ((b.drop (5 + 104 * i + 32)).take 32).length
            = min 32 (b.length - (5 + 104 * i + 32)) ∧
          ((b.drop (5 + 104 * i + 64)).take 32).length
            = min 32 (b.length - (5 + 104 * i + 64)) ∧
          ((b.drop (5 + 104 * i + 96)).take 8).length
            = min 8 (b.length - (5 + 104 * i + 96))) := by
  refine ⟨StakeStoreLayout_decode_short, ?_, StakeListLayout_decode_short, ?_⟩
  · intro b h
    refine ⟨StakeStoreLayout_decode_eq b h, ?_, ?_⟩
    · rw [List.length_take, List.length_drop]; omega
    · rw [List.length_take, List.length_drop]
  · intro n b h
    refine ⟨_, StakeListLayout_decode_eq n b h, by simp, ?_⟩
    intro i hi
    refine ⟨by simp [Buffer.slice, hi], ?_, ?_, ?_, ?_⟩ <;>
      rw [List.length_take, List.length_drop]

/-- C12, instances: a 34-byte buffer is rejected by the store layout; a 40-byte buffer
of 35 bytes 7 followed by 1, 2, 3, 4, 5 decodes to a record whose stakeList is exactly
these five bytes; a 4-byte buffer is rejected by the list layout; an 8-byte buffer
decodes with `StakeListLayout(1)` to an item whose owner is its last three bytes. -/
theorem decode_short_buffer_witness :
    StakeStoreLayout.decode (Buffer.alloc 34) 0 = Except.error JsError.rangeError ∧
    StakeStoreLayout.decode (List.replicate 35 7 ++ [1, 2, 3, 4, 5]) 0
      = Except.ok ⟨7, List.replicate 32 7, 1799, [1, 2, 3, 4, 5]⟩ ∧
    StakeListLayout.decode 2 (Buffer.alloc 4) 0 = Except.error JsError.rangeError ∧
    (∃ items : List StakeItem,
      StakeListLayout.decode 1 [1, 4, 0, 1, 0, 9, 8, 7] 0 = Except.ok ⟨⟨1, 4, 1⟩, items⟩ ∧
      items[0]? = some ⟨[9, 8, 7], [], [], []⟩) := by
  refine ⟨decode_short_buffer.1 (Buffer.alloc 34) (by decide),
    (decode_short_buffer.2.1 (List.replicate 35 7 ++ [1, 2, 3, 4, 5]) (by decide)).1,
    decode_short_buffer.2.2.1 2 (Buffer.alloc 4) (by decide), ?_⟩
  obtain ⟨items, h1, _, h3⟩ :=
    decode_short_buffer.2.2.2 1 [1, 4, 0, 1, 0, 9, 8, 7] (by decide)
  exact ⟨items, h1, (h3 0 (by decide)).1⟩

/-- C12 as stated fails: a 40-byte buffer, shorter than 67, decodes to a store record
whose stakeList has 5 bytes, and a 5-byte buffer, shorter than 5 + 104, decodes with
`StakeListLayout(1)` to a list record whose item has empty keys and an empty stakeTime. -/
theorem decode_short_buffer_returns :
    (Buffer.alloc 40).length < 67 ∧
    StakeStoreLayout.decode (Buffer.alloc 40) 0
      = Except.ok ⟨0, Buffer.alloc 32, 0, Buffer.alloc 5⟩ ∧
    (Buffer.alloc 5).length < 5 + 104 * 1 ∧
    StakeListLayout.decode 1 (Buffer.alloc 5) 0
      = Except.ok ⟨⟨0, 0, 0⟩, [⟨[], [], [], []⟩]⟩ := by
  decide

theorem loadStakingStore_ok
    (findProgramAddress : List Buffer → PublicKey → Option (PublicKey × Nat))
    (connection : Connection) (storeKey programId : PublicKey) (info : AccountInfo)
    (authorityKey : PublicKey) (nonce : Nat)
    (hget : connection.getAccountInfo storeKey = some info) (howner : info.owner = programId)
    (hlen : 67 ≤ info.data.length) (hinit : info.data[0].val ≠ 0)
    (hfpa : findProgramAddress [storeKey.toBuffer] programId = some (authorityKey, nonce)) :
    StakeStore.loadStakingStore findProgramAddress connection storeKey programId
      = Except.ok
          { stakingProgramId := programId
            tokenProgramId := authorityKey
            stakeStoreKey := storeKey
            stakeListKey := TOKEN_PROGRAM_ID
            managerKey := ⟨beValue (Buffer.slice info.data 1 33)⟩ } := by
  rw [loadStakingStore_eq findProgramAddress connection storeKey programId info hget howner
    hlen, if_neg hinit, hfpa]
  rfl

theorem StakeStore_stake_ok (self : StakeStore) (userKeypair mintKeyapir : Keypair)
    (stakeKey : PublicKey) (nftAmount : Amount) (bn : Nat)
    (hbn : BN.new nftAmount = Except.ok bn) (h : bn < 2 ^ 64) :
    StakeStore.stake self userKeypair mintKeyapir stakeKey nftAmount
      = Except.ok ⟨[⟨[⟨userKeypair.publicKey, true, false⟩,
          ⟨mintKeyapir.publicKey, false, false⟩, ⟨SYSVAR_CLOCK_PUBKEY, false, false⟩,
          ⟨stakeKey, false, true⟩, ⟨self.stakeStoreKey, false, true⟩,
          ⟨self.stakeListKey, false, true⟩, ⟨self.tokenProgramId, false, false⟩],
          self.stakingProgramId, 1 :: leBytes 8 bn⟩]⟩ := by
  unfold StakeStore.stake
  rw [stakeInstruction_ok _ _ _ _ _ _ nftAmount _ bn hbn h]
  rfl

/-- C13, the code at a failing input: an initialized 67-byte record with manager bytes 7
and stakeList bytes 9, owned by program 5 and fetched for store key 3, the program
address being key 99. The loaded store has the program id, the store key and the
manager of the record, but its stakeListKey is `TOKEN_PROGRAM_ID`, not the stakeList of
the record, and its tokenProgramId is the program address 99, not `TOKEN_PROGRAM_ID`;
a stake on it puts `TOKEN_PROGRAM_ID` at position 5 and key 99 at position 6. -/
theorem loadStakingStore_swapped_keys :
    StakeStoreLayout.decode (1 :: (List.replicate 32 7 ++ 0 :: 0 :: List.replicate 32 9)) 0
      = Except.ok ⟨1, List.replicate 32 7, 0, List.replicate 32 9⟩ ∧
    StakeStore.loadStakingStore (fun _ _ => some (⟨99⟩, 255))
        ⟨fun _ => some ⟨⟨5⟩, 1 :: (List.replicate 32 7 ++ 0 :: 0 :: List.replicate 32 9)⟩,
          fun n => n⟩ ⟨3⟩ ⟨5⟩
      = Except.ok
          { stakingProgramId := ⟨5⟩
            tokenProgramId := ⟨99⟩
            stakeStoreKey := ⟨3⟩
            stakeListKey := TOKEN_PROGRAM_ID
            managerKey := ⟨beValue (List.replicate 32 7)⟩ } ∧
    PublicKey.ofBuffer (List.replicate 32 9) = Except.ok ⟨beValue (List.replicate 32 9)⟩ ∧
    TOKEN_PROGRAM_ID ≠ ⟨beValue (List.replicate 32 9)⟩ ∧
    (⟨99⟩ : PublicKey) ≠ TOKEN_PROGRAM_ID ∧
    StakeStore.stake
        { stakingProgramId := ⟨5⟩
          tokenProgramId := ⟨99⟩
          stakeStoreKey := ⟨3⟩
          stakeListKey := TOKEN_PROGRAM_ID
          managerKey := ⟨beValue (List.replicate 32 7)⟩ }
        ⟨⟨21⟩⟩ ⟨⟨22⟩⟩ ⟨23⟩ (Amount.number 1)
      = Except.ok ⟨[⟨[⟨⟨21⟩, true, false⟩, ⟨⟨22⟩, false, false⟩,
          ⟨SYSVAR_CLOCK_PUBKEY, false, false⟩, ⟨⟨23⟩, false, true⟩, ⟨⟨3⟩, false, true⟩,
          ⟨TOKEN_PROGRAM_ID, false, true⟩, ⟨⟨99⟩, false, false⟩],
          ⟨5⟩, [1, 1, 0, 0, 0, 0, 0, 0, 0]⟩]⟩ := by
  refine ⟨by decide, ?_, PublicKey_ofBuffer_ok _ (by simp), by decide, by decide, ?_⟩
  · exact loadStakingStore_ok (fun _ _ => some (⟨99⟩, 255))
      ⟨fun _ => some ⟨⟨5⟩, 1 :: (List.replicate 32 7 ++ 0 :: 0 :: List.replicate 32 9)⟩,
        fun n => n⟩ ⟨3⟩ ⟨5⟩
      ⟨⟨5⟩, 1 :: (List.replicate 32 7 ++ 0 :: 0 :: List.replicate 32 9)⟩ ⟨99⟩ 255
      rfl rfl (by simp) (by decide) rfl
  · exact StakeStore_stake_ok _ ⟨⟨21⟩⟩ ⟨⟨22⟩⟩ ⟨23⟩ (Amount.number 1) 1 rfl (by decide)

end Staking
